import Mathlib

/-!
# Anoria room server

A shallow embedding of `src/websocket-server.js`: the room registry, the
per-room state, the command dispatcher and the broadcast router, as pure
state-passing functions over an explicit server state.

Conventions of the embedding.

* A JavaScript `Map` is an association list in insertion order
  (`mapGet`, `mapSet`, `mapDelete`); `size` is the length of the list.
* JSON numbers are rationals: every comparison the code makes on a number
  (`<`, `>=`, `>`, `===`, truthiness) depends on its value only. `-0` and
  `0` are the same value for all of them, `NaN` is not a JSON number, and
  an overflowing literal behaves like any number beyond every bound.
* `uuidv4()` is a generator of fresh identities: the n-th accepted
  connection is given identity `n`. A connection object and its `playerId`
  are named by that same number.
* The counters `nextRoomId` and `nextBuildingId` are natural numbers.
* `Date.now()` is the logical clock `State.now`, in milliseconds.
* Every `send` is recorded, in order, in `State.sent` together with the
  connection it was sent to. Template strings are kept as their fragments.
-/

namespace Anoria

/-! ## Values -/

/-- A value read from a field of a decoded envelope. `undefined` is an absent
field; `object` is an array or an object, carried by its JSON text (the code
never looks inside one). -/
inductive JVal
  | undefined
  | null
  | bool (b : Bool)
  | num (q : ℚ)
  | str (s : String)
  | object (json : String)
  deriving DecidableEq

/-- JavaScript truthiness, as used by `!v`, `v || d` and `if (v)`. -/
def JVal.truthy : JVal → Bool
  | .undefined => false
  | .null => false
  | .bool b => b
  | .num q => decide (q ≠ 0)
  | .str s => decide (s ≠ "")
  | .object _ => true

/-- The number held by a value for which `typeof v === 'number'`. -/
def JVal.asNumber : JVal → Option ℚ
  | .num q => some q
  | _ => none

/-- The expression `v || d`. -/
def JVal.orElse (v d : JVal) : JVal := if v.truthy then v else d

/-- Truthiness of a room binding: `null` and the empty string are falsy. -/
def truthyId : Option String → Option String
  | some r => if r = "" then none else some r
  | none => none

/-! ## Insertion-ordered maps -/

/-- The method `Map.prototype.get`. -/
def mapGet {κ β : Type} [DecidableEq κ] : List (κ × β) → κ → Option β
  | [], _ => none
  | (k', v) :: t, k => if k' = k then some v else mapGet t k

/-- The method `Map.prototype.set`: an existing key keeps its place. -/
def mapSet {κ β : Type} [DecidableEq κ] : List (κ × β) → κ → β → List (κ × β)
  | [], k, v => [(k, v)]
  | (k', v') :: t, k, v => if k' = k then (k, v) :: t else (k', v') :: mapSet t k v

/-- The method `Map.prototype.delete`. -/
def mapDelete {κ β : Type} [DecidableEq κ] : List (κ × β) → κ → List (κ × β)
  | [], _ => []
  | (k', v) :: t, k => if k' = k then mapDelete t k else (k', v) :: mapDelete t k

/-- The iterator `Map.prototype.values`, as an array. -/
def mapValues {κ β : Type} (m : List (κ × β)) : List β := m.map (fun e => e.2)

/-! ## Data model -/

def MAX_PLAYERS_PER_ROOM : Nat := 2

def MAX_CONNECTIONS : Int := 50

/-- The delay of the room-deletion timer, in milliseconds. -/
def GRACE_MS : Nat := 30000

/-- A player record of a room (or of the legacy `gameState`). -/
structure Player where
  id : Nat
  pseudo : JVal
  connected : Bool
  connectedAt : Nat
  lastActivity : Nat
  ws : Nat
  deriving DecidableEq

structure Building where
  id : String
  type : JVal
  x : ℚ
  y : ℚ
  playerId : Nat
  playerPseudo : JVal
  timestamp : Nat
  deriving DecidableEq

structure Room where
  id : String
  citySize : ℚ
  roomName : JVal
  players : List (Nat × Player)
  buildings : List (String × Building)
  gameTime : Nat
  nextBuildingId : Nat
  createdAt : Nat
  deriving DecidableEq

/-- One entry of an `AVAILABLE_ROOMS` directory. -/
structure RoomInfo where
  id : String
  citySize : ℚ
  roomName : JVal
  currentPlayers : Nat
  maxPlayers : Nat
  deriving DecidableEq

/-- One entry of a player list (`FULL_SYNC`, `PLAYERS_LIST_UPDATE`). -/
structure PlayerInfo where
  id : Nat
  pseudo : JVal
  connectedAt : Nat
  deriving DecidableEq

/-- A piece of a template string: literal text or an interpolated value. -/
inductive Frag
  | lit (s : String)
  | val (v : JVal)
  deriving DecidableEq

/-- An outbound event, before `JSON.stringify`. -/
inductive Msg
  | availableRooms (rooms : List RoomInfo)
  | roomCreated (roomId : String) (citySize : ℚ) (playerId : Nat)
  | roomJoined (roomId : String) (citySize : ℚ) (playerId : Nat)
  | playerJoined (playerId : Nat) (playerPseudo : JVal) (totalPlayers maxPlayers : Nat)
  | playerLeft (playerId : Nat) (playerPseudo : JVal) (totalPlayers : Nat)
  | playerPseudoUpdated (playerId : Nat) (playerPseudo : JVal)
  | playersListUpdate (players : List PlayerInfo)
  | buildConfirmed (buildingId : String) (building : Building)
  | buildBroadcast (building : Building)
  | fullSync (citySize : ℚ) (buildings : List Building) (players : List PlayerInfo)
      (gameTime : Nat)
  | error (code : String) (message : List Frag)
  | pong
  deriving DecidableEq

/-- A member of `wss.clients`: its identity, its `ws.roomId` binding and
whether `readyState === WebSocket.OPEN`. -/
structure Conn where
  playerId : Nat
  roomId : Option String
  readyOpen : Bool
  deriving DecidableEq

/-- A pending `setTimeout` of the close handler: the instant it is due and the
`roomId` its callback closes over. -/
structure Timer where
  due : Nat
  roomId : String
  deriving DecidableEq

/-- The whole server state. `gamePlayers` is `gameState.players`; the other
fields of `gameState` are never written and appear as constants below. -/
structure State where
  rooms : List (String × Room)
  nextRoomId : Nat
  gamePlayers : List (Nat × Player)
  currentConnections : Int
  clients : List Conn
  nextUuid : Nat
  now : Nat
  timers : List Timer
  sent : List (Nat × Msg)
  deriving DecidableEq

/-- The fields of a decoded envelope that the handlers read. -/
structure Data where
  type : JVal
  citySize : JVal
  playerPseudo : JVal
  roomName : JVal
  roomId : JVal
  buildingType : JVal
  x : JVal
  y : JVal
  deriving DecidableEq

/-- The result of a successful `JSON.parse`: the value `null`, or any other
JSON value seen through the fields above (a number, a string or an array has
none of them). -/
inductive Json
  | null
  | value (data : Data)
  deriving DecidableEq

/-- The state at process start. -/
def State.init : State :=
  { rooms := [], nextRoomId := 1, gamePlayers := [], currentConnections := 0,
    clients := [], nextUuid := 0, now := 0, timers := [], sent := [] }

/-! ## Sending -/

/-- The call `ws.send(JSON.stringify(m))`. -/
def send (s : State) (ws : Nat) (m : Msg) : State :=
  { s with sent := s.sent ++ [(ws, m)] }

/-- The same message sent to each listed connection, in order. -/
def sendAll (s : State) (targets : List Nat) (m : Msg) : State :=
  { s with sent := s.sent ++ targets.map (fun c => (c, m)) }

/-- Function `sendError`. -/
def sendError (s : State) (ws : Nat) (code : String) (message : List Frag) : State :=
  send s ws (.error code message)

/-- The test `ws.readyState === WebSocket.OPEN`. -/
def isOpen (s : State) (ws : Nat) : Bool :=
  s.clients.any (fun k => decide (k.playerId = ws) && k.readyOpen)

/-- The field `ws.roomId`. -/
def wsRoomId (s : State) (ws : Nat) : Option String :=
  (s.clients.find? (fun k => decide (k.playerId = ws))).bind (fun k => k.roomId)

/-- The assignment `ws.roomId = roomId`. -/
def setWsRoomId (s : State) (ws : Nat) (roomId : String) : State :=
  let clients := s.clients.map
    (fun k => if k.playerId = ws then { k with roomId := some roomId } else k)
  { s with clients := clients }

/-- The connections `broadcastToRoom` sends to: the sockets of the room's
player records other than the sender that are open. -/
def roomAudience (s : State) (room : Room) (sender : Nat) : List Nat :=
  ((mapValues room.players).filter
    (fun p => decide (p.ws ≠ sender) && isOpen s p.ws)).map (fun p => p.ws)

/-- Function `broadcastToRoom`. -/
def broadcastToRoom (s : State) (roomId : String) (sender : Nat) (m : Msg) : State :=
  match mapGet s.rooms roomId with
  | none => s
  | some room => sendAll s (roomAudience s room sender) m

/-- Function `broadcastToOthers`. -/
def broadcastToOthers (s : State) (sender : Nat) (m : Msg) : State :=
  sendAll s ((s.clients.filter
    (fun k => decide (k.playerId ≠ sender) && k.readyOpen)).map (fun k => k.playerId)) m

/-- Function `broadcast`. -/
def broadcast (s : State) (m : Msg) : State :=
  sendAll s ((s.clients.filter (fun k => k.readyOpen)).map (fun k => k.playerId)) m

/-- The player list built by `broadcastPlayersList` (`p.pseudo || 'Joueur'`). -/
def playersListOf (players : List (Nat × Player)) : List PlayerInfo :=
  (mapValues players).map
    (fun p => { id := p.id, pseudo := p.pseudo.orElse (.str "Joueur"),
                connectedAt := p.connectedAt })

/-- The player list built by `sendFullSync`. -/
def syncPlayersOf (players : List (Nat × Player)) : List PlayerInfo :=
  (mapValues players).map
    (fun p => { id := p.id, pseudo := p.pseudo, connectedAt := p.connectedAt })

/-- Function `broadcastPlayersList`. -/
def broadcastPlayersList (s : State) (roomId : Option String) : State :=
  match truthyId roomId with
  | none => broadcast s (.playersListUpdate (playersListOf s.gamePlayers))
  | some rid =>
    match mapGet s.rooms rid with
    | none => s
    | some room =>
      sendAll s (((mapValues room.players).filter (fun p => isOpen s p.ws)).map
        (fun p => p.ws)) (.playersListUpdate (playersListOf room.players))

/-- The directory built by the connection handler and by
`broadcastRoomListUpdate`: every room, full ones included. -/
def allRooms (s : State) : List RoomInfo :=
  (mapValues s.rooms).map
    (fun room => { id := room.id, citySize := room.citySize,
                   roomName := room.roomName.orElse .null,
                   currentPlayers := room.players.length,
                   maxPlayers := MAX_PLAYERS_PER_ROOM })

/-- The connections `broadcastRoomListUpdate` sends to: open and with a falsy
`roomId`. -/
def lobby (s : State) : List Nat :=
  (s.clients.filter
    (fun k => k.readyOpen && (truthyId k.roomId).isNone)).map (fun k => k.playerId)

/-- Function `broadcastRoomListUpdate`. -/
def broadcastRoomListUpdate (s : State) : State :=
  sendAll s (lobby s) (.availableRooms (allRooms s))

/-- Function `sendFullSync`. With a falsy `roomId` it answers from the legacy
`gameState` (`citySize` 16, no building, `gameTime` 0). -/
def sendFullSync (s : State) (ws : Nat) (roomId : Option String) : State :=
  match truthyId roomId with
  | none => send s ws (.fullSync 16 [] (syncPlayersOf s.gamePlayers) 0)
  | some rid =>
    match mapGet s.rooms rid with
    | none => sendError s ws "ROOM_NOT_FOUND" [.lit "Salon introuvable"]
    | some room =>
      send s ws (.fullSync room.citySize (mapValues room.buildings)
        (syncPlayersOf room.players) room.gameTime)

/-! ## Handlers -/

/-- The guard of `handleCreateRoom`:
`!citySize || typeof citySize !== 'number' || citySize < 12 || citySize > 24`
is false. It gives the accepted size. -/
def validCitySize (v : JVal) : Option ℚ :=
  if v.truthy then
    match v.asNumber with
    | some q => if q < 12 ∨ q > 24 then none else some q
    | none => none
  else none

/-- Function `handleCreateRoom`. -/
def handleCreateRoom (s : State) (ws playerId : Nat) (data : Data) : State :=
  match validCitySize data.citySize with
  | none => sendError s ws "INVALID_CITY_SIZE" [.lit "Taille de ville invalide (12-24)"]
  | some citySize =>
    let roomId := "room_" ++ toString s.nextRoomId
    let player : Player :=
      { id := playerId, pseudo := data.playerPseudo.orElse (.str "Joueur"),
        connected := true, connectedAt := s.now, lastActivity := s.now, ws := ws }
    let room : Room :=
      { id := roomId, citySize := citySize, roomName := data.roomName.orElse .null,
        players := mapSet [] playerId player, buildings := [], gameTime := 0,
        nextBuildingId := 1, createdAt := s.now }
    let s1 := { s with nextRoomId := s.nextRoomId + 1, rooms := mapSet s.rooms roomId room }
    let s2 := setWsRoomId s1 ws roomId
    let s3 := send s2 ws (.roomCreated roomId citySize playerId)
    let s4 := sendFullSync s3 ws (some roomId)
    broadcastRoomListUpdate s4

/-- The lookup `rooms.get(roomId)` of `handleJoinRoom`, whose key is whatever
the envelope holds: only a string can equal a key of the registry. -/
def lookupRoom (s : State) (roomId : JVal) : Option (String × Room) :=
  match roomId with
  | .str rid => (mapGet s.rooms rid).map (fun room => (rid, room))
  | _ => none

/-- Function `handleJoinRoom`. -/
def handleJoinRoom (s : State) (ws playerId : Nat) (data : Data) : State :=
  match lookupRoom s data.roomId with
  | none => sendError s ws "ROOM_NOT_FOUND" [.lit "Salon introuvable"]
  | some (roomId, room) =>
    if room.players.length ≥ MAX_PLAYERS_PER_ROOM then
      sendError s ws "ROOM_FULL" [.lit "Le salon est plein (2/2 joueurs)"]
    else
      let player : Player :=
        { id := playerId, pseudo := data.playerPseudo.orElse (.str "Joueur"),
          connected := true, connectedAt := s.now, lastActivity := s.now, ws := ws }
      let room1 := { room with players := mapSet room.players playerId player }
      let s1 := { s with rooms := mapSet s.rooms roomId room1 }
      let s2 := setWsRoomId s1 ws roomId
      let s3 := send s2 ws (.roomJoined roomId room1.citySize playerId)
      let s4 := sendFullSync s3 ws (some roomId)
      let s5 := broadcastToRoom s4 roomId ws
        (.playerJoined playerId (data.playerPseudo.orElse (.str "Joueur"))
          room1.players.length MAX_PLAYERS_PER_ROOM)
      let s6 := broadcastPlayersList s5 (some roomId)
      broadcastRoomListUpdate s6

/-- The search `Array.from(room.buildings.values()).find(b => b.x === x && b.y === y)`. -/
def existingBuilding (room : Room) (x y : ℚ) : Option Building :=
  (mapValues room.buildings).find? (fun b => decide (b.x = x) && decide (b.y = y))

/-- Function `handleBuild`. -/
def handleBuild (s : State) (ws playerId : Nat) (data : Data) : State :=
  match truthyId (wsRoomId s ws) with
  | none => sendError s ws "NOT_IN_ROOM" [.lit "Vous n'êtes pas dans un salon"]
  | some roomId =>
    match mapGet s.rooms roomId with
    | none => sendError s ws "ROOM_NOT_FOUND" [.lit "Salon introuvable"]
    | some room =>
      match data.buildingType.truthy, data.x.asNumber, data.y.asNumber with
      | true, some x, some y =>
        if x < 0 ∨ x ≥ room.citySize ∨ y < 0 ∨ y ≥ room.citySize then
          sendError s ws "OUT_OF_BOUNDS" [.lit "Position hors limites"]
        else
          match existingBuilding room x y with
          | some _ =>
            sendError s ws "POSITION_OCCUPIED"
              [.lit "Position (", .val (.num x), .lit ", ", .val (.num y), .lit ") déjà occupée"]
          | none =>
            let playerPseudo :=
              match mapGet room.players playerId with
              | some player => player.pseudo
              | none => .str "Joueur"
            let buildingId := "building_" ++ toString room.nextBuildingId
            let building : Building :=
              { id := buildingId, type := data.buildingType, x := x, y := y,
                playerId := playerId, playerPseudo := playerPseudo, timestamp := s.now }
            let room1 :=
              { room with nextBuildingId := room.nextBuildingId + 1,
                          buildings := mapSet room.buildings buildingId building }
            let s1 := { s with rooms := mapSet s.rooms roomId room1 }
            let s2 := send s1 ws (.buildConfirmed buildingId building)
            broadcastToRoom s2 roomId ws (.buildBroadcast building)
      | _, _, _ =>
        sendError s ws "INVALID_BUILD_DATA" [.lit "Données de construction invalides"]

/-- The value of `player ? player.pseudo : 'Joueur'`. -/
def pseudoOr (player : Option Player) : JVal :=
  match player with
  | some p => p.pseudo
  | none => .str "Joueur"

/-- The bookkeeping block that opens `handleMessage` (activity stamp and pseudo
update on the legacy `gameState.players` record). The result `.error` is a
thrown `TypeError` together with the state reached when it was thrown: reading
a field of `null`, or calling `.trim()` on a truthy value that is not a string.
`String.trim` stands for the JavaScript method of the same name. -/
def touchPlayer (s : State) (ws playerId : Nat) (data : Json) : Except State State :=
  match mapGet s.gamePlayers playerId with
  | none => .ok s
  | some player =>
    let player1 := { player with lastActivity := s.now }
    let s1 := { s with gamePlayers := mapSet s.gamePlayers playerId player1 }
    match data with
    | .null => .error s1
    | .value data =>
      if data.playerPseudo.truthy then
        match data.playerPseudo with
        | .str raw =>
          let newPseudo := raw.trim
          if newPseudo ≠ "" ∧ player1.pseudo ≠ .str newPseudo then
            let player2 := { player1 with pseudo := .str newPseudo }
            let s2 := { s1 with gamePlayers := mapSet s1.gamePlayers playerId player2 }
            match truthyId (wsRoomId s2 ws) with
            | some roomId =>
              let s3 := broadcastToRoom s2 roomId ws
                (.playerPseudoUpdated playerId (.str newPseudo))
              .ok (broadcastPlayersList s3 (some roomId))
            | none =>
              let s3 := broadcastToOthers s2 ws
                (.playerPseudoUpdated playerId (.str newPseudo))
              .ok (broadcastPlayersList s3 none)
          else .ok s1
        | _ => .error s1
      else .ok s1

/-- The `switch (data.type)` of `handleMessage`. -/
def dispatch (s : State) (ws playerId : Nat) (data : Data) : State :=
  if data.type = .str "CREATE_ROOM" then handleCreateRoom s ws playerId data
  else if data.type = .str "JOIN_ROOM" then handleJoinRoom s ws playerId data
  else if data.type = .str "BUILD" then handleBuild s ws playerId data
  else if data.type = .str "SYNC_REQUEST" then sendFullSync s ws (wsRoomId s ws)
  else if data.type = .str "PLAYER_PSEUDO" then s
  else if data.type = .str "PING" then send s ws .pong
  else sendError s ws "UNKNOWN_MESSAGE_TYPE" [.lit "Type inconnu: ", .val data.type]

/-- Function `handleMessage`; `.error` is a thrown exception, as in
`touchPlayer`. -/
def handleMessage (s : State) (ws playerId : Nat) (data : Json) : Except State State :=
  match touchPlayer s ws playerId data with
  | .error s1 => .error s1
  | .ok s1 =>
    match data with
    | .null => .error s1
    | .value d => .ok (dispatch s1 ws playerId d)

/-- The `message` listener of a connection: `none` is text that `JSON.parse`
rejects. Whatever is thrown inside the `try` is answered `INVALID_MESSAGE`. -/
def onMessage (s : State) (ws playerId : Nat) (message : Option Json) : State :=
  match message with
  | none => sendError s ws "INVALID_MESSAGE" [.lit "Message invalide"]
  | some data =>
    match handleMessage s ws playerId data with
    | .ok s1 => s1
    | .error s1 => sendError s1 ws "INVALID_MESSAGE" [.lit "Message invalide"]

/-- The connection listener of the server. A connection beyond the ceiling is
closed at once: it gets no identity, no listener and no message. -/
def onConnection (s : State) : State :=
  if s.currentConnections ≥ MAX_CONNECTIONS then s
  else
    let playerId := s.nextUuid
    let s1 := { s with currentConnections := s.currentConnections + 1,
                       nextUuid := s.nextUuid + 1,
                       clients := s.clients ++
                         [{ playerId := playerId, roomId := none, readyOpen := true }] }
    send s1 playerId (.availableRooms (allRooms s1))

/-- The transport marks a socket closed before its `close` listener runs. -/
def markClosed (s : State) (ws : Nat) : State :=
  let clients := s.clients.map
    (fun k => if k.playerId = ws then { k with readyOpen := false } else k)
  { s with clients := clients }

/-- The `close` listener of a connection. The `setTimeout` of the emptied room
is recorded in `timers`, due `GRACE_MS` after now. -/
def onClose (s : State) (ws playerId : Nat) : State :=
  let s0 := { s with currentConnections := s.currentConnections - 1 }
  match truthyId (wsRoomId s0 ws) with
  | some roomId =>
    match mapGet s0.rooms roomId with
    | some room =>
      let playerPseudo := pseudoOr (mapGet room.players playerId)
      let room1 := { room with players := mapDelete room.players playerId }
      let s1 := { s0 with rooms := mapSet s0.rooms roomId room1 }
      let s2 := broadcastToRoom s1 roomId ws
        (.playerLeft playerId playerPseudo room1.players.length)
      if room1.players.length = 0 then
        { s2 with timers := s2.timers ++ [{ due := s2.now + GRACE_MS, roomId := roomId }] }
      else broadcastRoomListUpdate s2
    | none => s0
  | none =>
    let playerPseudo := pseudoOr (mapGet s0.gamePlayers playerId)
    let s1 := { s0 with gamePlayers := mapDelete s0.gamePlayers playerId }
    broadcastToOthers s1 ws (.playerLeft playerId playerPseudo s1.gamePlayers.length)

/-- The callback of the room-deletion timer. -/
def graceCallback (s : State) (roomId : String) : State :=
  match mapGet s.rooms roomId with
  | some room =>
    if room.players.length = 0 then
      broadcastRoomListUpdate { s with rooms := mapDelete s.rooms roomId }
    else s
  | none => s

/-- The callback of the periodic sweep of `gameState.players`. -/
def sweepCallback (s : State) : State :=
  let kept := s.gamePlayers.filter
    (fun e => !decide ((s.now : Int) - (e.2.lastActivity : Int) > 5 * 60 * 1000))
  { s with gamePlayers := kept }

/-! ## Events and runs -/

/-- What the event loop can process next. `elapse` lets time pass; `graceTimer`
runs the oldest pending room-deletion callback; `sweepTimer` runs the periodic
sweep. -/
inductive Event
  | connection
  | message (ws : Nat) (text : Option Json)
  | close (ws : Nat)
  | elapse (ms : Nat)
  | graceTimer
  | sweepTimer
  deriving DecidableEq

/-- Whether an event can occur in a state: messages and closes come from open
connections only, time never passes a pending timer without running it, and a
timer runs once it is due. -/
def enabled (s : State) : Event → Bool
  | .connection => true
  | .message ws _ => isOpen s ws
  | .close ws => isOpen s ws
  | .elapse ms => s.timers.all (fun t => decide (s.now + ms ≤ t.due))
  | .graceTimer =>
    match s.timers with
    | t :: _ => decide (t.due ≤ s.now)
    | [] => false
  | .sweepTimer => true

/-- The effect of an event that occurs. -/
def fire (s : State) : Event → State
  | .connection => onConnection s
  | .message ws text => onMessage s ws ws text
  | .close ws => onClose (markClosed s ws) ws ws
  | .elapse ms => { s with now := s.now + ms }
  | .graceTimer =>
    match s.timers with
    | t :: rest => graceCallback { s with timers := rest } t.roomId
    | [] => s
  | .sweepTimer => sweepCallback s

/-- One turn of the event loop; an event that cannot occur changes nothing. -/
def step (s : State) (e : Event) : State :=
  if enabled s e then fire s e else s

/-- The state after a sequence of events, from process start. -/
def run (events : List Event) : State := events.foldl step State.init

/-- Every event of the sequence could occur when its turn came. -/
def feasible : State → List Event → Bool
  | _, [] => true
  | s, e :: rest => enabled s e && feasible (fire s e) rest

/-! ## Envelopes used in examples -/

/-- An envelope with every field absent. -/
def Data.empty : Data :=
  { type := .undefined, citySize := .undefined, playerPseudo := .undefined,
    roomName := .undefined, roomId := .undefined, buildingType := .undefined,
    x := .undefined, y := .undefined }

/-- The envelope `CREATE_ROOM` with a `citySize`. -/
def createRoomMsg (citySize : JVal) : Data :=
  { Data.empty with type := .str "CREATE_ROOM", citySize := citySize }

/-- The envelope `JOIN_ROOM` with a `roomId`. -/
def joinRoomMsg (roomId : JVal) : Data :=
  { Data.empty with type := .str "JOIN_ROOM", roomId := roomId }

/-- The envelope `BUILD` with a type and coordinates. -/
def buildMsg (buildingType x y : JVal) : Data :=
  { Data.empty with type := .str "BUILD", buildingType := buildingType, x := x, y := y }

/-- An envelope arriving on connection `ws`. -/
def say (ws : Nat) (data : Data) : Event := .message ws (some (.value data))

/-- The default player record of connection `c`, seated at instant `t`. -/
def guest (c t : Nat) : Player :=
  { id := c, pseudo := .str "Joueur", connected := true, connectedAt := t,
    lastActivity := t, ws := c }

/-- Connection 0 creates `room_1` and joins it again, connection 1 joins it,
connection 2 is refused. -/
def capacityRun : List Event :=
  [.connection, say 0 (createRoomMsg (.num 16)), say 0 (joinRoomMsg (.str "room_1")),
   .connection, say 1 (joinRoomMsg (.str "room_1")),
   .connection, say 2 (joinRoomMsg (.str "room_1"))]

/-- The room `room_1` at the end of `capacityRun`. -/
def capacityRoom : Room :=
  { id := "room_1", citySize := 16, roomName := .null,
    players := [(0, guest 0 0), (1, guest 1 0)], buildings := [], gameTime := 0,
    nextBuildingId := 1, createdAt := 0 }

/-- Connection 0 creates `room_1`, builds at (5, 5), tries (5, 5) again and
builds at (5, 6). -/
def buildRun : List Event :=
  [.connection, say 0 (createRoomMsg (.num 16)),
   say 0 (buildMsg (.str "house") (.num 5) (.num 5)),
   say 0 (buildMsg (.str "road") (.num 5) (.num 5)),
   say 0 (buildMsg (.str "road") (.num 5) (.num 6))]

/-- The building of type `type` that connection 0 placed at `(x, y)` under the
n-th building id. -/
def placed (n : Nat) (type : String) (x y : ℚ) : Building :=
  { id := "building_" ++ toString n, type := .str type, x := x, y := y, playerId := 0,
    playerPseudo := .str "Joueur", timestamp := 0 }

/-- The room `room_1` at the end of `buildRun`. -/
def buildRoom : Room :=
  { id := "room_1", citySize := 16, roomName := .null, players := [(0, guest 0 0)],
    buildings := [("building_1", placed 1 "house" 5 5), ("building_2", placed 2 "road" 5 6)],
    gameTime := 0, nextBuildingId := 3, createdAt := 0 }

/-- Connection 0 opens and sends nothing yet. -/
def lobbyRun : List Event := [.connection]

/-- Connection 0 creates `room_1` and builds at (5, 5). -/
def firstBuildRun : List Event :=
  [.connection, say 0 (createRoomMsg (.num 16)),
   say 0 (buildMsg (.str "house") (.num 5) (.num 5))]

/-- The room `room_1` at the end of `firstBuildRun`. -/
def firstBuildRoom : Room :=
  { id := "room_1", citySize := 16, roomName := .null, players := [(0, guest 0 0)],
    buildings := [("building_1", placed 1 "house" 5 5)], gameTime := 0,
    nextBuildingId := 2, createdAt := 0 }

/-- Connection 0 creates `room_1`; connection 1 opens. -/
def oneSeatedRun : List Event :=
  [.connection, say 0 (createRoomMsg (.num 16)), .connection]

/-- The room `room_1` at the end of `oneSeatedRun`. -/
def oneSeatedRoom : Room :=
  { id := "room_1", citySize := 16, roomName := .null, players := [(0, guest 0 0)],
    buildings := [], gameTime := 0, nextBuildingId := 1, createdAt := 0 }

/-- Connection 0 creates `room_1`, connection 1 joins it, connection 2 opens. -/
def twoSeatedRun : List Event :=
  [.connection, say 0 (createRoomMsg (.num 16)), .connection,
   say 1 (joinRoomMsg (.str "room_1")), .connection]

/-- The keys of a room's players map, if the room is in the registry. -/
def seatedIn (s : State) (roomId : String) : Option (List Nat) :=
  (mapGet s.rooms roomId).map (fun room => room.players.map Prod.fst)

/-- The pseudo under which a player is recorded in a room. -/
def pseudoIn (s : State) (roomId : String) (playerId : Nat) : Option JVal :=
  (mapGet s.rooms roomId).bind
    (fun room => (mapGet room.players playerId).map (fun p => p.pseudo))

/-- Connection 0 creates `room_1` as Alice and connection 1 joins it as Bob. -/
def pseudoRun : List Event :=
  [.connection,
   say 0 { createRoomMsg (.num 16) with playerPseudo := .str "Alice" },
   .connection,
   say 1 { joinRoomMsg (.str "room_1") with playerPseudo := .str "Bob" }]

/-- A `PING` from connection 0 that carries the pseudo Carol. -/
def renamingPing : Event :=
  say 0 { Data.empty with type := .str "PING", playerPseudo := .str "Carol" }

/-- Connection 0 creates `room_1`, then `room_2`, then closes. -/
def ghostRun : List Event :=
  [.connection, say 0 (createRoomMsg (.num 16)), say 0 (createRoomMsg (.num 16)), .close 0]

/-- Connection 0 creates `room_1` and leaves at instant 0; connection 1 joins at
10000 and leaves at 20000; at 30000 the timer of the first departure runs. -/
def graceRun : List Event :=
  [.connection, say 0 (createRoomMsg (.num 16)), .close 0,
   .elapse 10000, .connection, say 1 (joinRoomMsg (.str "room_1")),
   .elapse 10000, .close 1,
   .elapse 10000, .graceTimer]

/-- Connection 0 creates `room_1`, connection 1 waits in the lobby, connection
0 closes, and 30000 ms later the timer runs. -/
def directoryRun : List Event :=
  [.connection, say 0 (createRoomMsg (.num 16)), .connection, .close 0,
   .elapse 30000, .graceTimer]

/-- Connection 0 creates `room_1` and then `room_2`; connection 1 joins
`room_1` and builds there at (5, 5). -/
def crossRun : List Event :=
  [.connection, say 0 (createRoomMsg (.num 16)), say 0 (createRoomMsg (.num 16)),
   .connection, say 1 (joinRoomMsg (.str "room_1")),
   say 1 (buildMsg (.str "house") (.num 5) (.num 5))]

/-- The building connection 1 places at the end of `crossRun`. -/
def crossBuilding : Building :=
  { id := "building_1", type := .str "house", x := 5, y := 5, playerId := 1,
    playerPseudo := .str "Joueur", timestamp := 0 }

/-- The number 1/2, in lowest terms. -/
def half : ℚ := ⟨1, 2, by decide, by decide⟩

/-- Connection 0 creates `room_1` and builds at (1/2, 5). -/
def fractionRun : List Event :=
  [.connection, say 0 (createRoomMsg (.num 16)),
   say 0 (buildMsg (.str "house") (.num half) (.num 5))]

/-- The cells of the buildings of a room, if the room is in the registry. -/
def cellsIn (s : State) (roomId : String) : Option (List (ℚ × ℚ)) :=
  (mapGet s.rooms roomId).map (fun room => (mapValues room.buildings).map (fun b => (b.x, b.y)))

/-- The envelope `SYNC_REQUEST`. -/
def syncRequestMsg : Data := { Data.empty with type := .str "SYNC_REQUEST" }

/-- The key of the n-th building of a room, `building_n`. -/
def buildingKey (n : Nat) : String := "building_" ++ toString n

/-! ## Predicates used in the statements -/

/-- The keys of a room's buildings map are `building_1`, ..., up to the last
id the room's counter gave out, in that order. -/
def BuildingKeysInOrder (r : Room) : Prop :=
  1 ≤ r.nextBuildingId ∧
    r.buildings.map Prod.fst = (List.range' 1 (r.nextBuildingId - 1)).map buildingKey


/-- The snapshot of a room: its `citySize`, the values of its buildings map in
order, one `id, pseudo, connectedAt` entry per entry of its players map in
order, and its `gameTime`. -/
def snapshot (room : Room) : Msg :=
  .fullSync room.citySize (room.buildings.map Prod.snd)
    (room.players.map
      (fun e => { id := e.2.id, pseudo := e.2.pseudo, connectedAt := e.2.connectedAt }))
    room.gameTime


/-- Every stored building of the room stands inside the room's grid. -/
def InGrid (r : Room) : Prop :=
  ∀ b ∈ mapValues r.buildings, 0 ≤ b.x ∧ b.x < r.citySize ∧ 0 ≤ b.y ∧ b.y < r.citySize


/-- The key of the n-th room, `room_n`. -/
def roomKey (n : Nat) : String := "room_" ++ toString n

/-- The number a list of decimal digit characters writes. -/
def digitsValue (l : List Char) : Nat := l.foldl (fun a c => 10 * a + (c.toNat - 48)) 0

/-- Every key of the registry is `room_k` for some `k` below the counter. -/
def KeysBelow (s : State) : Prop :=
  ∀ x ∈ s.rooms, ∃ k, k < s.nextRoomId ∧ x.1 = roomKey k

/-- Between `s` and `t` a room was created for connection `c`: the registry
gained exactly one room, under a key that is not empty and was not in use, whose
only player is `c`; `c` is bound to it; and the first message sent meanwhile is
`ROOM_CREATED` with that key, to `c`. -/
def CreatedRoom (s t : State) (c : Nat) : Prop :=
  ∃ roomId room, roomId ≠ "" ∧ mapGet s.rooms roomId = none ∧
    t.rooms = s.rooms ++ [(roomId, room)] ∧ room.players.map Prod.fst = [c] ∧
    wsRoomId t c = some roomId ∧
    ∃ q rest, t.sent = s.sent ++ (c, Msg.roomCreated roomId q c) :: rest


/-- One way a room of the registry changes in place: a player is seated below
capacity, a player record is deleted, or a building is stored on a free cell
inside the grid under the next building id. -/
inductive Evolves : Room → Room → Prop
  | seat (r : Room) (pid : Nat) (p : Player)
      (hroom : r.players.length < MAX_PLAYERS_PER_ROOM)
      (hp : p.id = pid ∧ p.ws = pid) :
      Evolves r { r with players := mapSet r.players pid p }
  | leave (r : Room) (pid : Nat) :
      Evolves r { r with players := mapDelete r.players pid }
  | build (r : Room) (b : Building)
      (hfree : existingBuilding r b.x b.y = none)
      (hin : ¬ (b.x < 0 ∨ b.x ≥ r.citySize ∨ b.y < 0 ∨ b.y ≥ r.citySize))
      (hid : b.id = "building_" ++ toString r.nextBuildingId) :
      Evolves r { r with nextBuildingId := r.nextBuildingId + 1,
                         buildings := mapSet r.buildings b.id b }

/-- A room as `handleCreateRoom` stores it: its creator alone, no building. -/
def Fresh (r : Room) : Prop :=
  r.buildings = [] ∧ r.nextBuildingId = 1 ∧ 12 ≤ r.citySize ∧ r.citySize ≤ 24 ∧
    ∃ p : Player, r.players = [(p.id, p)] ∧ p.ws = p.id

/-- No two entries of a room's `buildings` map stand on the same cell. -/
def DistinctCells (r : Room) : Prop :=
  (mapValues r.buildings).Pairwise (fun a b => (a.x, a.y) ≠ (b.x, b.y))

/-- The room id a `ROOM_CREATED` message announces. -/
def createdId : Msg → Option String
  | .roomCreated roomId _ _ => some roomId
  | _ => none

/-- The room ids announced by the `ROOM_CREATED` messages of a record of sends,
in the order they were sent. -/
def createdIds (l : List (Nat × Msg)) : List String :=
  l.filterMap (fun e => createdId e.2)

/-! ## The record of sends -/

/-- A state with further messages appended to the record of sends. -/
def pushed (s : State) (l : List (Nat × Msg)) : State :=
  { s with sent := s.sent ++ l }

/-- What `broadcastToRoom` appends to the record of sends. -/
def roomCast (s : State) (roomId : String) (sender : Nat) (m : Msg) : List (Nat × Msg) :=
  match mapGet s.rooms roomId with
  | none => []
  | some room => (roomAudience s room sender).map (fun c => (c, m))

/-- What `broadcastRoomListUpdate` appends to the record of sends. -/
def directoryCast (s : State) : List (Nat × Msg) :=
  (lobby s).map (fun c => (c, Msg.availableRooms (allRooms s)))

/-- What `broadcastPlayersList` appends to the record of sends. -/
def playersCast (s : State) (roomId : Option String) : List (Nat × Msg) :=
  match truthyId roomId with
  | none =>
    ((s.clients.filter (fun k => k.readyOpen)).map (fun k => k.playerId)).map
      (fun c => (c, Msg.playersListUpdate (playersListOf s.gamePlayers)))
  | some rid =>
    match mapGet s.rooms rid with
    | none => []
    | some room =>
      (((mapValues room.players).filter (fun p => isOpen s p.ws)).map (fun p => p.ws)).map
        (fun c => (c, Msg.playersListUpdate (playersListOf room.players)))

/-- What `sendFullSync` sends to the requesting connection. -/
def syncReply (s : State) (roomId : Option String) : Msg :=
  match truthyId roomId with
  | none => .fullSync 16 [] (syncPlayersOf s.gamePlayers) 0
  | some rid =>
    match mapGet s.rooms rid with
    | none => .error "ROOM_NOT_FOUND" [.lit "Salon introuvable"]
    | some room =>
      .fullSync room.citySize (mapValues room.buildings) (syncPlayersOf room.players)
        room.gameTime

/-- Between `s` and `t` connection `c` joined the room that was `room` under
`roomId`: its player record was set in that room's players map, `c` is bound to
the room, and the first message sent meanwhile is `ROOM_JOINED`, to `c`. -/
def JoinedRoom (s t : State) (c : Nat) (roomId : String) (room : Room) : Prop :=
  ∃ room1 player, mapGet t.rooms roomId = some room1 ∧
    room1.players = mapSet room.players c player ∧
    mapGet room1.players c = some player ∧ player.id = c ∧
    wsRoomId t c = some roomId ∧
    ∃ rest, t.sent = s.sent ++ (c, Msg.roomJoined roomId room.citySize c) :: rest

/-- The registry after a handler ran: either the counter of room ids is
unchanged and every room is a room of the state before or one of them changed
in place, or a fresh room was stored under the next room id. -/
def RegistryMove (s t : State) : Prop :=
  (t.nextRoomId = s.nextRoomId ∧
    ∀ x ∈ t.rooms, x ∈ s.rooms ∨ ∃ r, (x.1, r) ∈ s.rooms ∧ Evolves r x.2) ∨
  (t.nextRoomId = s.nextRoomId + 1 ∧
    ∃ room, Fresh room ∧ t.rooms = mapSet s.rooms (roomKey s.nextRoomId) room)

/-! ## The state a handler leaves -/

/-- The player record stored by `handleCreateRoom` and `handleJoinRoom`. -/
def newPlayer (s : State) (ws playerId : Nat) (data : Data) : Player :=
  { id := playerId, pseudo := data.playerPseudo.orElse (.str "Joueur"),
    connected := true, connectedAt := s.now, lastActivity := s.now, ws := ws }

/-- The room stored by a successful `handleCreateRoom`. -/
def createdRoom (s : State) (ws playerId : Nat) (data : Data) (citySize : ℚ) : Room :=
  { id := roomKey s.nextRoomId, citySize := citySize, roomName := data.roomName.orElse .null,
    players := [(playerId, newPlayer s ws playerId data)], buildings := [], gameTime := 0,
    nextBuildingId := 1, createdAt := s.now }

/-- The state a successful `handleCreateRoom` leaves, sends apart. -/
def afterCreate (s : State) (ws playerId : Nat) (data : Data) (citySize : ℚ) : State :=
  setWsRoomId
    { s with nextRoomId := s.nextRoomId + 1,
             rooms := mapSet s.rooms (roomKey s.nextRoomId)
               (createdRoom s ws playerId data citySize) }
    ws (roomKey s.nextRoomId)

/-- The room a successful `handleJoinRoom` stores back. -/
def joinedRoom (s : State) (ws playerId : Nat) (data : Data) (room : Room) : Room :=
  { room with players := mapSet room.players playerId (newPlayer s ws playerId data) }

/-- The state a successful `handleJoinRoom` leaves, sends apart. -/
def afterJoin (s : State) (ws playerId : Nat) (data : Data) (roomId : String)
    (room : Room) : State :=
  setWsRoomId { s with rooms := mapSet s.rooms roomId (joinedRoom s ws playerId data room) }
    ws roomId

/-- The building stored by a successful `handleBuild`. -/
def newBuilding (s : State) (playerId : Nat) (data : Data) (room : Room) (x y : ℚ) :
    Building :=
  { id := "building_" ++ toString room.nextBuildingId, type := data.buildingType, x := x,
    y := y, playerId := playerId, playerPseudo := pseudoOr (mapGet room.players playerId),
    timestamp := s.now }

/-- The room a successful `handleBuild` stores back. -/
def builtRoom (room : Room) (b : Building) : Room :=
  { room with nextBuildingId := room.nextBuildingId + 1,
              buildings := mapSet room.buildings b.id b }

/-- The state a successful `handleBuild` leaves, sends apart. -/
def afterBuild (s : State) (roomId : String) (room : Room) (b : Building) : State :=
  { s with rooms := mapSet s.rooms roomId (builtRoom room b) }

/-- The state the close listener leaves when the connection was bound to a
room of the registry, sends and timer apart. -/
def afterLeave (s : State) (roomId : String) (room : Room) (playerId : Nat) : State :=
  { s with currentConnections := s.currentConnections - 1,
           rooms := mapSet s.rooms roomId
             { room with players := mapDelete room.players playerId } }

/-- The state carried by the result of a handler that may throw. -/
def outcome (r : Except State State) : State :=
  match r with
  | .ok t => t
  | .error t => t

/-- Every open connection that is bound to a room has that room in the registry
and its own player id among the keys of the room's players map. -/
def SeatsHeld (s : State) : Prop :=
  ∀ k ∈ s.clients, k.readyOpen = true → ∀ roomId, k.roomId = some roomId →
    ∃ room p, mapGet s.rooms roomId = some room ∧ mapGet room.players k.playerId = some p

/-- The identities of the connections are 0, 1, ..., in order of acceptance. -/
def IdsInOrder (s : State) : Prop :=
  s.clients.map (fun k => k.playerId) = List.range s.nextUuid

/-- The messages sent between a state and a later one. -/
def answers (s t : State) : List (Nat × Msg) := t.sent.drop s.sent.length

/-! ## Turns of the event loop -/

/-- One turn of the event loop, seen on the registry, the counter of room ids,
the connections, the counter of identities and the room ids announced:
nothing of these changes (`quiet`), a connection is accepted, a room is created,
joined or built in, a connection closes, or an empty room is deleted. -/
inductive Transition (s t : State) : Prop
  | quiet (hrooms : t.rooms = s.rooms) (hnext : t.nextRoomId = s.nextRoomId)
      (hclients : t.clients = s.clients) (huuid : t.nextUuid = s.nextUuid)
      (hlog : createdIds t.sent = createdIds s.sent)
  | connect (hrooms : t.rooms = s.rooms) (hnext : t.nextRoomId = s.nextRoomId)
      (hclients : t.clients =
        s.clients ++ [{ playerId := s.nextUuid, roomId := none, readyOpen := true }])
      (huuid : t.nextUuid = s.nextUuid + 1)
      (hlog : createdIds t.sent = createdIds s.sent)
  | create (c : Nat) (p : Player)
      (hrooms : ∃ room, room.players = [(c, p)] ∧
        t.rooms = mapSet s.rooms (roomKey s.nextRoomId) room)
      (hnext : t.nextRoomId = s.nextRoomId + 1)
      (hclients : t.clients = (setWsRoomId s c (roomKey s.nextRoomId)).clients)
      (huuid : t.nextUuid = s.nextUuid)
      (hlog : createdIds t.sent = createdIds s.sent ++ [roomKey s.nextRoomId])
  | join (c : Nat) (roomId : String) (room : Room) (p : Player)
      (hroom : mapGet s.rooms roomId = some room)
      (hrooms : t.rooms =
        mapSet s.rooms roomId { room with players := mapSet room.players c p })
      (hnext : t.nextRoomId = s.nextRoomId)
      (hclients : t.clients = (setWsRoomId s c roomId).clients)
      (huuid : t.nextUuid = s.nextUuid)
      (hlog : createdIds t.sent = createdIds s.sent)
  | build (roomId : String) (room : Room) (b : Building)
      (hroom : mapGet s.rooms roomId = some room)
      (hrooms : t.rooms = mapSet s.rooms roomId (builtRoom room b))
      (hnext : t.nextRoomId = s.nextRoomId)
      (hclients : t.clients = s.clients) (huuid : t.nextUuid = s.nextUuid)
      (hlog : createdIds t.sent = createdIds s.sent)
  | close (c : Nat)
      (hrooms : t.rooms = s.rooms ∨ ∃ roomId room, mapGet s.rooms roomId = some room ∧
        t.rooms = mapSet s.rooms roomId { room with players := mapDelete room.players c })
      (hnext : t.nextRoomId = s.nextRoomId)
      (hclients : t.clients = (markClosed s c).clients)
      (huuid : t.nextUuid = s.nextUuid)
      (hlog : createdIds t.sent = createdIds s.sent)
  | expire (roomId : String) (room : Room)
      (hroom : mapGet s.rooms roomId = some room) (hempty : room.players = [])
      (hrooms : t.rooms = mapDelete s.rooms roomId)
      (hnext : t.nextRoomId = s.nextRoomId)
      (hclients : t.clients = s.clients) (huuid : t.nextUuid = s.nextUuid)
      (hlog : createdIds t.sent = createdIds s.sent)

/-! # Theorems -/

/-! ## Lemmas on maps -/

theorem mem_mapValues {κ β : Type} {m : List (κ × β)} {b : β} :
    b ∈ mapValues m ↔ ∃ e ∈ m, e.2 = b := by
  simp [mapValues]

section Maps

variable {κ β : Type} [DecidableEq κ]

theorem mem_of_mapGet {m : List (κ × β)} {k : κ} {v : β} (h : mapGet m k = some v) :
    (k, v) ∈ m := by
  induction m with
  | nil => simp [mapGet] at h
  | cons e t ih =>
    obtain ⟨k', v'⟩ := e
    by_cases hk : k' = k
    · simp [mapGet, hk] at h
      simp [hk, h]
    · simp [mapGet, hk] at h
      exact List.mem_cons_of_mem _ (ih h)

theorem mapGet_eq_none_iff {m : List (κ × β)} {k : κ} :
    mapGet m k = none ↔ ∀ e ∈ m, e.1 ≠ k := by
  induction m with
  | nil => simp [mapGet]
  | cons e t ih =>
    obtain ⟨k', v'⟩ := e
    by_cases hk : k' = k
    · simp [mapGet, hk]
    · simp [mapGet, hk, ih]

theorem mapGet_mapSet_self (m : List (κ × β)) (k : κ) (v : β) :
    mapGet (mapSet m k v) k = some v := by
  induction m with
  | nil => simp [mapSet, mapGet]
  | cons e t ih =>
    obtain ⟨k', v'⟩ := e
    by_cases hk : k' = k
    · simp [mapSet, mapGet, hk]
    · simp [mapSet, mapGet, hk, ih]

theorem mapGet_mapSet_ne (m : List (κ × β)) {k j : κ} (v : β) (h : k ≠ j) :
    mapGet (mapSet m k v) j = mapGet m j := by
  induction m with
  | nil => simp [mapSet, mapGet, h]
  | cons e t ih =>
    obtain ⟨k', v'⟩ := e
    by_cases hk : k' = k
    · subst hk
      simp [mapSet, mapGet, h]
    · by_cases hj : k' = j
      · subst hj
        simp [mapSet, mapGet, hk]
      · simp [mapSet, mapGet, hk, hj, ih]

theorem mem_mapSet {m : List (κ × β)} {k : κ} {v : β} {e : κ × β}
    (h : e ∈ mapSet m k v) : e = (k, v) ∨ e ∈ m := by
  induction m with
  | nil => simpa [mapSet] using h
  | cons a t ih =>
    obtain ⟨k', v'⟩ := a
    by_cases hk : k' = k
    · simp [mapSet, hk] at h
      rcases h with h | h
      · exact Or.inl h
      · exact Or.inr (List.mem_cons_of_mem _ h)
    · simp [mapSet, hk] at h
      rcases h with h | h
      · exact Or.inr (by simp [h])
      · rcases ih h with h1 | h1
        · exact Or.inl h1
        · exact Or.inr (List.mem_cons_of_mem _ h1)

theorem mapSet_of_mapGet_none {m : List (κ × β)} {k : κ} (v : β)
    (h : mapGet m k = none) : mapSet m k v = m ++ [(k, v)] := by
  induction m with
  | nil => simp [mapSet]
  | cons a t ih =>
    obtain ⟨k', v'⟩ := a
    by_cases hk : k' = k
    · simp [mapGet, hk] at h
    · simp [mapGet, hk] at h
      simp [mapSet, hk, ih h]

theorem length_mapSet_le (m : List (κ × β)) (k : κ) (v : β) :
    (mapSet m k v).length ≤ m.length + 1 := by
  induction m with
  | nil => simp [mapSet]
  | cons a t ih =>
    obtain ⟨k', v'⟩ := a
    by_cases hk : k' = k
    · simp [mapSet, hk]
    · simp [mapSet, hk]
      omega

theorem keys_mapSet_of_mapGet {m : List (κ × β)} {k : κ} {v0 : β} (v : β)
    (h : mapGet m k = some v0) :
    (mapSet m k v).map Prod.fst = m.map Prod.fst := by
  induction m with
  | nil => simp [mapGet] at h
  | cons a t ih =>
    obtain ⟨k', v'⟩ := a
    by_cases hk : k' = k
    · simp [mapSet, hk]
    · simp [mapGet, hk] at h
      simp [mapSet, hk, ih h]

theorem mem_mapDelete {m : List (κ × β)} {k : κ} {e : κ × β}
    (h : e ∈ mapDelete m k) : e ∈ m ∧ e.1 ≠ k := by
  induction m with
  | nil => simp [mapDelete] at h
  | cons a t ih =>
    obtain ⟨k', v'⟩ := a
    by_cases hk : k' = k
    · simp [mapDelete, hk] at h
      exact ⟨List.mem_cons_of_mem _ (ih h).1, (ih h).2⟩
    · simp [mapDelete, hk] at h
      rcases h with h | h
      · subst h
        exact ⟨by simp, hk⟩
      · exact ⟨List.mem_cons_of_mem _ (ih h).1, (ih h).2⟩

theorem length_mapDelete_le (m : List (κ × β)) (k : κ) :
    (mapDelete m k).length ≤ m.length := by
  induction m with
  | nil => simp [mapDelete]
  | cons a t ih =>
    obtain ⟨k', v'⟩ := a
    by_cases hk : k' = k
    · simp [mapDelete, hk]
      omega
    · simp [mapDelete, hk]
      exact ih

theorem mapGet_mapDelete_self (m : List (κ × β)) (k : κ) :
    mapGet (mapDelete m k) k = none := by
  rw [mapGet_eq_none_iff]
  intro e he
  exact (mem_mapDelete he).2

theorem pairwise_mapValues_mapSet {R : β → β → Prop} (hsymm : ∀ a b, R a b → R b a)
    {m : List (κ × β)} (k : κ) {v : β} (hm : (mapValues m).Pairwise R)
    (hv : ∀ a ∈ mapValues m, R a v) : (mapValues (mapSet m k v)).Pairwise R := by
  induction m with
  | nil => simp [mapSet, mapValues]
  | cons a t ih =>
    obtain ⟨k', v'⟩ := a
    have hm' : (∀ b ∈ mapValues t, R v' b) ∧ (mapValues t).Pairwise R := by
      simpa [mapValues] using hm
    have hv' : R v' v ∧ ∀ b ∈ mapValues t, R b v := by
      constructor
      · exact hv v' (by simp [mapValues])
      · intro b hb
        exact hv b (by
          rw [mem_mapValues] at hb ⊢
          obtain ⟨e, he, hb⟩ := hb
          exact ⟨e, List.mem_cons_of_mem _ he, hb⟩)
    by_cases hk : k' = k
    · have : mapValues (mapSet ((k', v') :: t) k v) = v :: mapValues t := by
        simp [mapSet, hk, mapValues]
      rw [this, List.pairwise_cons]
      exact ⟨fun b hb => hsymm _ _ (hv'.2 b hb), hm'.2⟩
    · have : mapValues (mapSet ((k', v') :: t) k v) = v' :: mapValues (mapSet t k v) := by
        simp [mapSet, hk, mapValues]
      rw [this, List.pairwise_cons]
      refine ⟨?_, ih hm'.2 hv'.2⟩
      intro b hb
      rw [mem_mapValues] at hb
      obtain ⟨e, he, hb⟩ := hb
      rcases mem_mapSet he with h1 | h1
      · subst h1
        subst hb
        exact hv'.1
      · exact hm'.1 b (mem_mapValues.mpr ⟨e, h1, hb⟩)

end Maps

/-! ## Lemmas on sending -/

@[simp] theorem pushed_rooms (s : State) (l : List (Nat × Msg)) :
    (pushed s l).rooms = s.rooms := rfl

@[simp] theorem pushed_nextRoomId (s : State) (l : List (Nat × Msg)) :
    (pushed s l).nextRoomId = s.nextRoomId := rfl

@[simp] theorem pushed_gamePlayers (s : State) (l : List (Nat × Msg)) :
    (pushed s l).gamePlayers = s.gamePlayers := rfl

@[simp] theorem pushed_currentConnections (s : State) (l : List (Nat × Msg)) :
    (pushed s l).currentConnections = s.currentConnections := rfl

@[simp] theorem pushed_clients (s : State) (l : List (Nat × Msg)) :
    (pushed s l).clients = s.clients := rfl

@[simp] theorem pushed_nextUuid (s : State) (l : List (Nat × Msg)) :
    (pushed s l).nextUuid = s.nextUuid := rfl

@[simp] theorem pushed_now (s : State) (l : List (Nat × Msg)) :
    (pushed s l).now = s.now := rfl

@[simp] theorem pushed_timers (s : State) (l : List (Nat × Msg)) :
    (pushed s l).timers = s.timers := rfl

@[simp] theorem pushed_sent (s : State) (l : List (Nat × Msg)) :
    (pushed s l).sent = s.sent ++ l := rfl

@[simp] theorem pushed_nil (s : State) : pushed s [] = s := by
  simp [pushed]

@[simp] theorem pushed_pushed (s : State) (a b : List (Nat × Msg)) :
    pushed (pushed s a) b = pushed s (a ++ b) := by
  simp [pushed]

@[simp] theorem isOpen_pushed (s : State) (l : List (Nat × Msg)) (ws : Nat) :
    isOpen (pushed s l) ws = isOpen s ws := rfl

@[simp] theorem wsRoomId_pushed (s : State) (l : List (Nat × Msg)) (ws : Nat) :
    wsRoomId (pushed s l) ws = wsRoomId s ws := rfl

@[simp] theorem roomAudience_pushed (s : State) (l : List (Nat × Msg)) (room : Room)
    (sender : Nat) : roomAudience (pushed s l) room sender = roomAudience s room sender := rfl

@[simp] theorem allRooms_pushed (s : State) (l : List (Nat × Msg)) :
    allRooms (pushed s l) = allRooms s := rfl

@[simp] theorem lobby_pushed (s : State) (l : List (Nat × Msg)) :
    lobby (pushed s l) = lobby s := rfl

theorem send_eq (s : State) (ws : Nat) (m : Msg) : send s ws m = pushed s [(ws, m)] := rfl

theorem sendAll_eq (s : State) (targets : List Nat) (m : Msg) :
    sendAll s targets m = pushed s (targets.map (fun c => (c, m))) := rfl

theorem sendError_eq (s : State) (ws : Nat) (code : String) (message : List Frag) :
    sendError s ws code message = pushed s [(ws, .error code message)] := rfl

theorem broadcastToRoom_eq (s : State) (roomId : String) (sender : Nat) (m : Msg) :
    broadcastToRoom s roomId sender m = pushed s (roomCast s roomId sender m) := by
  unfold broadcastToRoom roomCast
  split <;> simp [sendAll_eq]

theorem broadcastRoomListUpdate_eq (s : State) :
    broadcastRoomListUpdate s = pushed s (directoryCast s) := rfl

theorem broadcastPlayersList_eq (s : State) (roomId : Option String) :
    broadcastPlayersList s roomId = pushed s (playersCast s roomId) := by
  unfold playersCast broadcastPlayersList
  split
  · rfl
  · split
    · simp
    · rfl

theorem sendFullSync_eq (s : State) (ws : Nat) (roomId : Option String) :
    sendFullSync s ws roomId = pushed s [(ws, syncReply s roomId)] := by
  unfold sendFullSync syncReply
  split
  · rfl
  · split <;> rfl

theorem broadcastToOthers_eq (s : State) (sender : Nat) (m : Msg) :
    broadcastToOthers s sender m = pushed s
      (((s.clients.filter (fun k => decide (k.playerId ≠ sender) && k.readyOpen)).map
        (fun k => k.playerId)).map (fun c => (c, m))) := rfl

@[simp] theorem setWsRoomId_rooms (s : State) (ws : Nat) (r : String) :
    (setWsRoomId s ws r).rooms = s.rooms := rfl

@[simp] theorem setWsRoomId_nextRoomId (s : State) (ws : Nat) (r : String) :
    (setWsRoomId s ws r).nextRoomId = s.nextRoomId := rfl

@[simp] theorem setWsRoomId_gamePlayers (s : State) (ws : Nat) (r : String) :
    (setWsRoomId s ws r).gamePlayers = s.gamePlayers := rfl

@[simp] theorem setWsRoomId_sent (s : State) (ws : Nat) (r : String) :
    (setWsRoomId s ws r).sent = s.sent := rfl

@[simp] theorem setWsRoomId_timers (s : State) (ws : Nat) (r : String) :
    (setWsRoomId s ws r).timers = s.timers := rfl

@[simp] theorem setWsRoomId_now (s : State) (ws : Nat) (r : String) :
    (setWsRoomId s ws r).now = s.now := rfl

@[simp] theorem markClosed_rooms (s : State) (ws : Nat) :
    (markClosed s ws).rooms = s.rooms := rfl

@[simp] theorem markClosed_nextRoomId (s : State) (ws : Nat) :
    (markClosed s ws).nextRoomId = s.nextRoomId := rfl

@[simp] theorem markClosed_gamePlayers (s : State) (ws : Nat) :
    (markClosed s ws).gamePlayers = s.gamePlayers := rfl

@[simp] theorem markClosed_sent (s : State) (ws : Nat) :
    (markClosed s ws).sent = s.sent := rfl

/-! ## The guard on `citySize` -/

theorem validCitySize_num (r : ℚ) :
    validCitySize (.num r) = if 12 ≤ r ∧ r ≤ 24 then some r else none := by
  by_cases h0 : r = 0
  · subst h0
    have h : ¬ ((12 : ℚ) ≤ 0 ∧ (0 : ℚ) ≤ 24) := by norm_num
    rw [if_neg h]
    simp [validCitySize, JVal.truthy]
  · by_cases hr : r < 12 ∨ r > 24
    · have hn : ¬ (12 ≤ r ∧ r ≤ 24) := by
        rintro ⟨h1, h2⟩
        rcases hr with h | h
        · exact absurd h1 (not_le.mpr h)
        · exact absurd h2 (not_le.mpr h)
      simp [validCitySize, JVal.truthy, JVal.asNumber, h0, hr, hn]
    · have hy : 12 ≤ r ∧ r ≤ 24 := by
        push_neg at hr
        exact hr
      simp [validCitySize, JVal.truthy, JVal.asNumber, h0, hr, hy]

theorem validCitySize_eq_some {v : JVal} {q : ℚ} :
    validCitySize v = some q ↔ v = .num q ∧ 12 ≤ q ∧ q ≤ 24 := by
  cases v with
  | num r =>
    rw [validCitySize_num]
    by_cases hr : 12 ≤ r ∧ r ≤ 24
    · rw [if_pos hr]
      constructor
      · intro h
        have hq : r = q := by simpa using h
        subst hq
        exact ⟨rfl, hr⟩
      · rintro ⟨h, -⟩
        have hq : r = q := by simpa using h
        rw [hq]
    · rw [if_neg hr]
      constructor
      · intro h
        cases h
      · rintro ⟨h, h2⟩
        have hq : r = q := by simpa using h
        subst hq
        exact absurd h2 hr
  | _ => simp [validCitySize, JVal.truthy, JVal.asNumber]

theorem validCitySize_eq_none {v : JVal} :
    validCitySize v = none ↔ ¬ ∃ q, v = .num q ∧ 12 ≤ q ∧ q ≤ 24 := by
  constructor
  · rintro h ⟨q, hq⟩
    rw [validCitySize_eq_some.mpr hq] at h
    cases h
  · intro h
    cases hv : validCitySize v with
    | none => rfl
    | some q => exact absurd ⟨q, validCitySize_eq_some.mp hv⟩ h

/-! ## How the registry changes -/

theorem RegistryMove.of_same {s t : State} (h1 : t.nextRoomId = s.nextRoomId)
    (h2 : t.rooms = s.rooms) : RegistryMove s t := by
  left
  refine ⟨h1, ?_⟩
  intro x hx
  rw [h2] at hx
  exact Or.inl hx

theorem RegistryMove.of_change {s t : State} {roomId : String} (room : Room) {room1 : Room}
    (h1 : t.nextRoomId = s.nextRoomId) (hget : mapGet s.rooms roomId = some room)
    (hev : Evolves room room1) (h2 : t.rooms = mapSet s.rooms roomId room1) :
    RegistryMove s t := by
  left
  refine ⟨h1, ?_⟩
  intro x hx
  rw [h2] at hx
  rcases mem_mapSet hx with h | h
  · right
    subst h
    exact ⟨room, mem_of_mapGet hget, hev⟩
  · exact Or.inl h

theorem lookupRoom_eq_some {s : State} {v : JVal} {roomId : String} {room : Room} :
    lookupRoom s v = some (roomId, room) ↔
      v = .str roomId ∧ mapGet s.rooms roomId = some room := by
  cases v with
  | str rid =>
    cases hg : mapGet s.rooms rid with
    | none =>
      simp only [lookupRoom, hg, Option.map_none', JVal.str.injEq]
      constructor
      · intro h
        cases h
      · rintro ⟨h1, h2⟩
        subst h1
        rw [hg] at h2
        cases h2
    | some r =>
      simp only [lookupRoom, hg, Option.map_some', Option.some.injEq, Prod.mk.injEq,
        JVal.str.injEq]
      constructor
      · rintro ⟨h1, h2⟩
        subst h1
        subst h2
        exact ⟨rfl, hg⟩
      · rintro ⟨h1, h2⟩
        subst h1
        rw [hg] at h2
        exact ⟨rfl, by simpa using h2⟩
  | _ => simp [lookupRoom]

theorem handleCreateRoom_of_none {s : State} {ws playerId : Nat} {data : Data}
    (h : validCitySize data.citySize = none) :
    handleCreateRoom s ws playerId data =
      pushed s [(ws, .error "INVALID_CITY_SIZE" [.lit "Taille de ville invalide (12-24)"])] := by
  unfold handleCreateRoom
  rw [h]
  rfl

theorem handleCreateRoom_of_some {s : State} {ws playerId : Nat} {data : Data} {q : ℚ}
    (h : validCitySize data.citySize = some q) :
    handleCreateRoom s ws playerId data =
      pushed (afterCreate s ws playerId data q)
        ([(ws, .roomCreated (roomKey s.nextRoomId) q playerId),
          (ws, syncReply (afterCreate s ws playerId data q) (some (roomKey s.nextRoomId)))] ++
          directoryCast (afterCreate s ws playerId data q)) := by
  unfold handleCreateRoom
  rw [h]
  simp only [send_eq, sendFullSync_eq, broadcastRoomListUpdate_eq, pushed_pushed]
  rfl

theorem handleJoinRoom_of_none {s : State} {ws playerId : Nat} {data : Data}
    (h : lookupRoom s data.roomId = none) :
    handleJoinRoom s ws playerId data =
      pushed s [(ws, .error "ROOM_NOT_FOUND" [.lit "Salon introuvable"])] := by
  unfold handleJoinRoom
  rw [h]
  rfl

theorem handleJoinRoom_of_full {s : State} {ws playerId : Nat} {data : Data}
    {roomId : String} {room : Room} (h : lookupRoom s data.roomId = some (roomId, room))
    (hfull : room.players.length ≥ MAX_PLAYERS_PER_ROOM) :
    handleJoinRoom s ws playerId data =
      pushed s [(ws, .error "ROOM_FULL" [.lit "Le salon est plein (2/2 joueurs)"])] := by
  unfold handleJoinRoom
  rw [h]
  simp only [hfull, if_true]
  rfl

theorem handleJoinRoom_of_seat {s : State} {ws playerId : Nat} {data : Data}
    {roomId : String} {room : Room} (h : lookupRoom s data.roomId = some (roomId, room))
    (hfree : room.players.length < MAX_PLAYERS_PER_ROOM) :
    handleJoinRoom s ws playerId data =
      pushed (afterJoin s ws playerId data roomId room)
        ([(ws, .roomJoined roomId room.citySize playerId),
          (ws, syncReply (afterJoin s ws playerId data roomId room) (some roomId))] ++
          roomCast (afterJoin s ws playerId data roomId room) roomId ws
            (.playerJoined playerId (data.playerPseudo.orElse (.str "Joueur"))
              (joinedRoom s ws playerId data room).players.length MAX_PLAYERS_PER_ROOM) ++
          playersCast (afterJoin s ws playerId data roomId room) (some roomId) ++
          directoryCast (afterJoin s ws playerId data roomId room)) := by
  unfold handleJoinRoom
  rw [h]
  simp only [ge_iff_le, not_le.mpr hfree, if_false, send_eq, sendFullSync_eq,
    broadcastRoomListUpdate_eq, broadcastPlayersList_eq, broadcastToRoom_eq, pushed_pushed]
  simp only [List.append_assoc]
  rfl

theorem handleCreateRoom_move (s : State) (c : Nat) (data : Data) :
    RegistryMove s (handleCreateRoom s c c data) := by
  cases hv : validCitySize data.citySize with
  | none =>
    rw [handleCreateRoom_of_none hv]
    exact RegistryMove.of_same rfl rfl
  | some q =>
    rw [handleCreateRoom_of_some hv]
    right
    have hq := validCitySize_eq_some.mp hv
    refine ⟨rfl, createdRoom s c c data q, ?_, rfl⟩
    exact ⟨rfl, rfl, hq.2.1, hq.2.2, newPlayer s c c data, rfl, rfl⟩

theorem handleJoinRoom_move (s : State) (c : Nat) (data : Data) :
    RegistryMove s (handleJoinRoom s c c data) := by
  cases hl : lookupRoom s data.roomId with
  | none =>
    rw [handleJoinRoom_of_none hl]
    exact RegistryMove.of_same rfl rfl
  | some found =>
    obtain ⟨roomId, room⟩ := found
    have hget := (lookupRoom_eq_some.mp hl).2
    by_cases hfull : room.players.length ≥ MAX_PLAYERS_PER_ROOM
    · rw [handleJoinRoom_of_full hl hfull]
      exact RegistryMove.of_same rfl rfl
    · rw [handleJoinRoom_of_seat hl (not_le.mp hfull)]
      exact RegistryMove.of_change room rfl hget
        (Evolves.seat room c (newPlayer s c c data) (not_le.mp hfull) ⟨rfl, rfl⟩) rfl

theorem handleBuild_of_occupied {s : State} {ws playerId : Nat} {data : Data}
    {roomId : String} {room : Room} {x y : ℚ} {b : Building}
    (hseat : truthyId (wsRoomId s ws) = some roomId)
    (hroom : mapGet s.rooms roomId = some room)
    (htype : data.buildingType.truthy = true) (hx : data.x = .num x) (hy : data.y = .num y)
    (hin : ¬ (x < 0 ∨ x ≥ room.citySize ∨ y < 0 ∨ y ≥ room.citySize))
    (hocc : existingBuilding room x y = some b) :
    handleBuild s ws playerId data =
      pushed s [(ws, .error "POSITION_OCCUPIED"
        [.lit "Position (", .val (.num x), .lit ", ", .val (.num y),
          .lit ") déjà occupée"])] := by
  unfold handleBuild
  rw [hseat]
  simp only [hroom, htype, hx, hy, JVal.asNumber, hin, if_false, hocc]
  rfl

theorem handleBuild_of_free {s : State} {ws playerId : Nat} {data : Data}
    {roomId : String} {room : Room} {x y : ℚ}
    (hseat : truthyId (wsRoomId s ws) = some roomId)
    (hroom : mapGet s.rooms roomId = some room)
    (htype : data.buildingType.truthy = true) (hx : data.x = .num x) (hy : data.y = .num y)
    (hin : ¬ (x < 0 ∨ x ≥ room.citySize ∨ y < 0 ∨ y ≥ room.citySize))
    (hfree : existingBuilding room x y = none) :
    handleBuild s ws playerId data =
      pushed (afterBuild s roomId room (newBuilding s playerId data room x y))
        ((ws, .buildConfirmed (newBuilding s playerId data room x y).id
            (newBuilding s playerId data room x y)) ::
          roomCast (afterBuild s roomId room (newBuilding s playerId data room x y)) roomId ws
            (.buildBroadcast (newBuilding s playerId data room x y))) := by
  unfold handleBuild
  rw [hseat]
  simp only [hroom, htype, hx, hy, JVal.asNumber, hin, if_false, hfree, send_eq,
    broadcastToRoom_eq, pushed_pushed]
  rfl

theorem handleBuild_move (s : State) (c : Nat) (data : Data) :
    RegistryMove s (handleBuild s c c data) := by
  cases hseat : truthyId (wsRoomId s c) with
  | none =>
    unfold handleBuild
    rw [hseat]
    exact RegistryMove.of_same rfl rfl
  | some roomId =>
    cases hroom : mapGet s.rooms roomId with
    | none =>
      unfold handleBuild
      rw [hseat]
      simp only [hroom]
      exact RegistryMove.of_same rfl rfl
    | some room =>
      by_cases hdata : data.buildingType.truthy = true ∧
          ∃ x y, data.x = .num x ∧ data.y = .num y
      · obtain ⟨htype, x, y, hx, hy⟩ := hdata
        by_cases hin : x < 0 ∨ x ≥ room.citySize ∨ y < 0 ∨ y ≥ room.citySize
        · unfold handleBuild
          rw [hseat]
          simp only [hroom, htype, hx, hy, JVal.asNumber, hin, if_true]
          exact RegistryMove.of_same rfl rfl
        · cases hocc : existingBuilding room x y with
          | some b =>
            rw [handleBuild_of_occupied hseat hroom htype hx hy hin hocc]
            exact RegistryMove.of_same rfl rfl
          | none =>
            rw [handleBuild_of_free hseat hroom htype hx hy hin hocc]
            exact RegistryMove.of_change room rfl hroom
              (Evolves.build room (newBuilding s c data room x y) hocc hin rfl) rfl
      · have : handleBuild s c c data = pushed s [(c, .error "INVALID_BUILD_DATA"
            [.lit "Données de construction invalides"])] := by
          unfold handleBuild
          rw [hseat]
          simp only [hroom]
          split
          · next x y h1 h2 h3 =>
            exfalso
            apply hdata
            refine ⟨h1, x, y, ?_, ?_⟩
            · cases hdx : data.x <;> simp [hdx, JVal.asNumber] at h2
              rw [h2]
            · cases hdy : data.y <;> simp [hdy, JVal.asNumber] at h3
              rw [h3]
          · rfl
        rw [this]
        exact RegistryMove.of_same rfl rfl

theorem outcome_touchPlayer (s : State) (ws playerId : Nat) (data : Json) :
    (outcome (touchPlayer s ws playerId data)).rooms = s.rooms ∧
      (outcome (touchPlayer s ws playerId data)).nextRoomId = s.nextRoomId := by
  unfold touchPlayer
  split
  · exact ⟨rfl, rfl⟩
  · split
    · exact ⟨rfl, rfl⟩
    · split
      · split
        · dsimp only
          split
          · split <;>
              simp [outcome, broadcastPlayersList_eq, broadcastToRoom_eq, broadcastToOthers_eq]
          · exact ⟨rfl, rfl⟩
        · exact ⟨rfl, rfl⟩
      · exact ⟨rfl, rfl⟩

theorem RegistryMove.from_same {s0 s t : State} (h1 : s.nextRoomId = s0.nextRoomId)
    (h2 : s.rooms = s0.rooms) (h : RegistryMove s t) : RegistryMove s0 t := by
  unfold RegistryMove at h ⊢
  rw [h1, h2] at h
  exact h

theorem dispatch_move (s : State) (c : Nat) (data : Data) :
    RegistryMove s (dispatch s c c data) := by
  unfold dispatch
  split
  · exact handleCreateRoom_move s c data
  · split
    · exact handleJoinRoom_move s c data
    · split
      · exact handleBuild_move s c data
      · split
        · rw [sendFullSync_eq]
          exact RegistryMove.of_same rfl rfl
        · split
          · exact RegistryMove.of_same rfl rfl
          · split <;> exact RegistryMove.of_same rfl rfl

theorem onMessage_move (s : State) (c : Nat) (message : Option Json) :
    RegistryMove s (onMessage s c c message) := by
  cases message with
  | none => exact RegistryMove.of_same rfl rfl
  | some data =>
    have hframe := outcome_touchPlayer s c c data
    cases ht : touchPlayer s c c data with
    | error s1 =>
      rw [ht] at hframe
      simp only [onMessage, handleMessage, ht]
      exact RegistryMove.of_same hframe.2 hframe.1
    | ok s1 =>
      rw [ht] at hframe
      cases data with
      | null =>
        simp only [onMessage, handleMessage, ht]
        exact RegistryMove.of_same hframe.2 hframe.1
      | value d =>
        simp only [onMessage, handleMessage, ht]
        exact RegistryMove.from_same (s := s1) hframe.2 hframe.1 (dispatch_move s1 c d)

theorem onClose_move (s : State) (c : Nat) : RegistryMove s (onClose s c c) := by
  unfold onClose
  dsimp only
  split
  · next roomId hseat =>
    split
    · next room hroom =>
      have hmove : ∀ t : State, t.nextRoomId = s.nextRoomId →
          t.rooms = mapSet s.rooms roomId { room with players := mapDelete room.players c } →
          RegistryMove s t := fun t h1 h2 =>
        RegistryMove.of_change room h1 hroom (Evolves.leave room c) h2
      split
      · exact hmove _ (by simp [broadcastToRoom_eq]) (by simp [broadcastToRoom_eq])
      · exact hmove _ (by simp [broadcastToRoom_eq, broadcastRoomListUpdate_eq])
          (by simp [broadcastToRoom_eq, broadcastRoomListUpdate_eq])
    · exact RegistryMove.of_same rfl rfl
  · exact RegistryMove.of_same rfl rfl

theorem graceCallback_move (s : State) (roomId : String) :
    RegistryMove s (graceCallback s roomId) := by
  unfold graceCallback
  split
  · split
    · left
      refine ⟨rfl, ?_⟩
      intro x hx
      exact Or.inl (mem_mapDelete hx).1
    · exact RegistryMove.of_same rfl rfl
  · exact RegistryMove.of_same rfl rfl

theorem fire_graceTimer (s : State) :
    fire s .graceTimer =
      match s.timers with
      | t :: rest => graceCallback { s with timers := rest } t.roomId
      | [] => s := rfl

theorem fire_move (s : State) (e : Event) : RegistryMove s (fire s e) := by
  cases e with
  | connection =>
    show RegistryMove s (onConnection s)
    unfold onConnection
    split
    · exact RegistryMove.of_same rfl rfl
    · exact RegistryMove.of_same rfl rfl
  | message ws text => exact onMessage_move s ws text
  | close ws =>
    exact RegistryMove.from_same (s := markClosed s ws) rfl rfl (onClose_move _ ws)
  | elapse ms => exact RegistryMove.of_same rfl rfl
  | graceTimer =>
    rw [fire_graceTimer]
    split
    · next t rest _ =>
      exact RegistryMove.from_same (s := { s with timers := rest }) rfl rfl
        (graceCallback_move _ t.roomId)
    · exact RegistryMove.of_same rfl rfl
  | sweepTimer => exact RegistryMove.of_same rfl rfl

theorem step_move (s : State) (e : Event) : RegistryMove s (step s e) := by
  unfold step
  split
  · exact fire_move s e
  · exact RegistryMove.of_same rfl rfl

/-! ## Induction over runs -/

theorem foldl_step_invariant (P : State → Prop) (hstep : ∀ s e, P s → P (step s e))
    (events : List Event) : ∀ s, P s → P (events.foldl step s) := by
  induction events with
  | nil => intro s hs; exact hs
  | cons e rest ih => intro s hs; exact ih (step s e) (hstep s e hs)

theorem run_invariant (P : State → Prop) (hinit : P State.init)
    (hstep : ∀ s e, P s → P (step s e)) (events : List Event) : P (run events) :=
  foldl_step_invariant P hstep events State.init hinit

/-- A property of rooms that fresh rooms have and that every change in place
keeps holds of every room of every reachable registry. -/
theorem rooms_invariant (Q : Room → Prop) (hfresh : ∀ r, Fresh r → Q r)
    (hev : ∀ r r1, Q r → Evolves r r1 → Q r1) (events : List Event) :
    ∀ x ∈ (run events).rooms, Q x.2 := by
  refine run_invariant (fun s => ∀ x ∈ s.rooms, Q x.2) ?_ ?_ events
  · intro x hx
    simp [State.init] at hx
  · intro s e hs x hx
    rcases step_move s e with ⟨-, h⟩ | ⟨-, room, hroom, h⟩
    · rcases h x hx with h1 | ⟨r, hr, hevo⟩
      · exact hs x h1
      · exact hev r x.2 (hs (x.1, r) hr) hevo
    · rw [h] at hx
      rcases mem_mapSet hx with h1 | h1
      · subst h1
        exact hfresh room hroom
      · exact hs x h1

/-! ## Capacity and cells -/

theorem capacity_of_evolves {r r1 : Room} (h : r.players.length ≤ MAX_PLAYERS_PER_ROOM)
    (hev : Evolves r r1) : r1.players.length ≤ MAX_PLAYERS_PER_ROOM := by
  cases hev with
  | seat pid p hroom hp =>
    have := length_mapSet_le r.players pid p
    show (mapSet r.players pid p).length ≤ MAX_PLAYERS_PER_ROOM
    omega
  | leave pid =>
    have := length_mapDelete_le r.players pid
    show (mapDelete r.players pid).length ≤ MAX_PLAYERS_PER_ROOM
    omega
  | build b hfree hin hid => exact h

theorem capacity_run (events : List Event) :
    ∀ x ∈ (run events).rooms, x.2.players.length ≤ MAX_PLAYERS_PER_ROOM := by
  refine rooms_invariant (fun r => r.players.length ≤ MAX_PLAYERS_PER_ROOM) ?_ ?_ events
  · rintro r ⟨-, -, -, -, p, hp, -⟩
    simp [hp, MAX_PLAYERS_PER_ROOM]
  · intro r r1 h hev
    exact capacity_of_evolves h hev

theorem distinctCells_of_evolves {r r1 : Room} (h : DistinctCells r) (hev : Evolves r r1) :
    DistinctCells r1 := by
  cases hev with
  | seat pid p hroom hp => exact h
  | leave pid => exact h
  | build b hfree hin hid =>
    show (mapValues (mapSet r.buildings b.id b)).Pairwise _
    refine pairwise_mapValues_mapSet ?_ b.id h ?_
    · intro a c hac hca
      exact hac hca.symm
    · intro a ha hab
      unfold existingBuilding at hfree
      have hnone := List.find?_eq_none.mp hfree a ha
      simp only [Prod.mk.injEq] at hab
      simp [hab.1, hab.2] at hnone

theorem distinctCells_run (events : List Event) :
    ∀ x ∈ (run events).rooms, DistinctCells x.2 := by
  refine rooms_invariant DistinctCells ?_ ?_ events
  · rintro r ⟨hb, -⟩
    simp [DistinctCells, hb, mapValues]
  · intro r r1 h hev
    exact distinctCells_of_evolves h hev

/-- C1. Capacity invariant: after any sequence of connection, message (of any
content), close, elapse and timer events from process start, every room of the
registry has at most `MAX_PLAYERS_PER_ROOM` = 2 entries in its players map. -/
theorem capacity_invariant (events : List Event) (x : String × Room)
    (hx : x ∈ (run events).rooms) : x.2.players.length ≤ MAX_PLAYERS_PER_ROOM :=
  capacity_run events x hx

theorem capacity_invariant_witness :
    feasible State.init capacityRun = true ∧
      ("room_1", capacityRoom) ∈ (run capacityRun).rooms ∧
      capacityRoom.players.length ≤ MAX_PLAYERS_PER_ROOM :=
  ⟨by decide, by decide, capacity_invariant capacityRun ("room_1", capacityRoom) (by decide)⟩

/-- C2. Position uniqueness invariant: in every state reached from process
start, no two entries of a room's buildings map have the same `(x, y)`. -/
theorem position_uniqueness (events : List Event) (x : String × Room)
    (hx : x ∈ (run events).rooms) :
    (mapValues x.2.buildings).Pairwise (fun a b => (a.x, a.y) ≠ (b.x, b.y)) :=
  distinctCells_run events x hx

theorem position_uniqueness_witness :
    feasible State.init buildRun = true ∧
      ("room_1", buildRoom) ∈ (run buildRun).rooms ∧
      (mapValues buildRoom.buildings).Pairwise (fun a b => (a.x, a.y) ≠ (b.x, b.y)) :=
  ⟨by decide, by decide, position_uniqueness buildRun ("room_1", buildRoom) (by decide)⟩

/-! ## Room keys -/

theorem digitChar_value (d : Nat) (h : d < 10) : (Nat.digitChar d).toNat - 48 = d := by
  interval_cases d <;> rfl

theorem toDigitsCore_acc (f : Nat) : ∀ (n : Nat) (ds : List Char),
    Nat.toDigitsCore 10 f n ds = Nat.toDigitsCore 10 f n [] ++ ds := by
  induction f with
  | zero => intro n ds; simp [Nat.toDigitsCore]
  | succ f ih =>
    intro n ds
    simp only [Nat.toDigitsCore]
    split
    · simp
    · rw [ih (n / 10) (_ :: ds), ih (n / 10) [_]]
      simp

theorem digitsValue_toDigitsCore (f : Nat) : ∀ n, n < f →
    digitsValue (Nat.toDigitsCore 10 f n []) = n := by
  induction f with
  | zero => intro n h; omega
  | succ f ih =>
    intro n h
    simp only [Nat.toDigitsCore]
    split
    · next h0 =>
      have hn : n % 10 = n := by omega
      have hd := digitChar_value (n % 10) (Nat.mod_lt _ (by decide))
      rw [hn] at hd ⊢
      simpa [digitsValue] using hd
    · next h0 =>
      rw [toDigitsCore_acc]
      have hlt : n / 10 < f := by omega
      have := ih (n / 10) hlt
      unfold digitsValue at this ⊢
      rw [List.foldl_append, this]
      simp [digitChar_value (n % 10) (Nat.mod_lt _ (by decide))]
      omega

theorem toString_nat_injective {a b : Nat} (h : toString a = toString b) : a = b := by
  have h1 : Nat.toDigits 10 a = Nat.toDigits 10 b := by
    have := congrArg String.data h
    simpa [toString, Nat.repr] using this
  have ha := digitsValue_toDigitsCore (a + 1) a (by omega)
  have hb := digitsValue_toDigitsCore (b + 1) b (by omega)
  unfold Nat.toDigits at h1
  rw [h1] at ha
  omega

theorem roomKey_injective {a b : Nat} (h : roomKey a = roomKey b) : a = b := by
  unfold roomKey at h
  have := congrArg String.data h
  simp only [String.data_append, List.append_cancel_left_eq] at this
  exact toString_nat_injective (String.ext this)

theorem roomKey_ne_empty (n : Nat) : roomKey n ≠ "" := by
  intro h
  have := congrArg String.length h
  simp only [roomKey, String.length_append] at this
  have h5 : "room_".length = 5 := by decide
  have h0 : "".length = 0 := by decide
  omega
  

theorem keysBelow_run (events : List Event) : KeysBelow (run events) := by
  refine run_invariant KeysBelow ?_ ?_ events
  · intro x hx
    simp [State.init] at hx
  · intro s e hs x hx
    rcases step_move s e with ⟨hn, h⟩ | ⟨hn, room, -, h⟩
    · rw [hn]
      rcases h x hx with h1 | ⟨r, hr, -⟩
      · exact hs x h1
      · exact hs (x.1, r) hr
    · rw [hn]
      rw [h] at hx
      rcases mem_mapSet hx with h1 | h1
      · exact ⟨s.nextRoomId, by omega, by rw [h1]⟩
      · obtain ⟨k, hk, hx1⟩ := hs x h1
        exact ⟨k, by omega, hx1⟩

theorem nextKey_unused {s : State} (h : KeysBelow s) :
    mapGet s.rooms (roomKey s.nextRoomId) = none := by
  rw [mapGet_eq_none_iff]
  intro x hx hkey
  obtain ⟨k, hk, hx1⟩ := h x hx
  rw [hx1] at hkey
  have := roomKey_injective hkey
  omega

/-! ## Bindings -/

theorem exists_client_of_isOpen {s : State} {c : Nat} (h : isOpen s c = true) :
    ∃ k ∈ s.clients, k.playerId = c := by
  unfold isOpen at h
  rw [List.any_eq_true] at h
  obtain ⟨k, hk, hp⟩ := h
  simp only [Bool.and_eq_true, decide_eq_true_eq] at hp
  exact ⟨k, hk, hp.1⟩

theorem find_rebound (c : Nat) (roomId : String) (l : List Conn)
    (h : ∃ k ∈ l, k.playerId = c) :
    ((l.map (fun k => if k.playerId = c then { k with roomId := some roomId } else k)).find?
      (fun k => decide (k.playerId = c))).bind (fun k => k.roomId) = some roomId := by
  induction l with
  | nil =>
    obtain ⟨k0, hk0, -⟩ := h
    simp at hk0
  | cons k t ih =>
    by_cases hk : k.playerId = c
    · simp [List.find?, hk]
    · obtain ⟨k0, hk0, hc⟩ := h
      have hmem : k0 ∈ t := by
        rcases List.mem_cons.mp hk0 with h1 | h1
        · subst h1
          exact absurd hc hk
        · exact h1
      simpa [List.find?, hk] using ih ⟨k0, hmem, hc⟩

theorem wsRoomId_setWsRoomId {s : State} {c : Nat} (roomId : String)
    (h : ∃ k ∈ s.clients, k.playerId = c) :
    wsRoomId (setWsRoomId s c roomId) c = some roomId :=
  find_rebound c roomId s.clients h

theorem key_ne_empty {s : State} (h : KeysBelow s) {roomId : String} {room : Room}
    (hroom : mapGet s.rooms roomId = some room) : roomId ≠ "" := by
  obtain ⟨k, -, hk⟩ := h (roomId, room) (mem_of_mapGet hroom)
  rw [show roomId = roomKey k from hk]
  exact roomKey_ne_empty k

theorem truthyId_some {r : String} (h : r ≠ "") : truthyId (some r) = some r := by
  simp [truthyId, h]

/-! ## Creating, building, joining -/

/-- C3. In every reachable state, for every open connection `c` and every
envelope: `handleCreateRoom` creates a room (the registry gains exactly one
room, under an unused non-empty key, whose only player is `c`; `c` is bound to
it; `c` is sent `ROOM_CREATED` with that key) if and only if `citySize` is a
number with 12 ≤ citySize ≤ 24. In every other case the state is left as it
was (registry, room-id counter and bindings included) but for one message:
`ERROR` with code `INVALID_CITY_SIZE`, sent to `c`. -/
theorem createRoom_iff_valid (events : List Event) (c : Nat) (data : Data)
    (hc : isOpen (run events) c = true) :
    ((∃ q, data.citySize = .num q ∧ 12 ≤ q ∧ q ≤ 24) ↔
        CreatedRoom (run events) (handleCreateRoom (run events) c c data) c) ∧
    ((¬ ∃ q, data.citySize = .num q ∧ 12 ≤ q ∧ q ≤ 24) →
        handleCreateRoom (run events) c c data =
          { run events with sent := (run events).sent ++
              [(c, .error "INVALID_CITY_SIZE" [.lit "Taille de ville invalide (12-24)"])] }) := by
  have hinvalid : (¬ ∃ q, data.citySize = .num q ∧ 12 ≤ q ∧ q ≤ 24) →
      handleCreateRoom (run events) c c data =
        pushed (run events)
          [(c, .error "INVALID_CITY_SIZE" [.lit "Taille de ville invalide (12-24)"])] :=
    fun h => handleCreateRoom_of_none (validCitySize_eq_none.mpr h)
  refine ⟨⟨?_, ?_⟩, hinvalid⟩
  · rintro ⟨q, hq⟩
    rw [handleCreateRoom_of_some (validCitySize_eq_some.mpr hq)]
    have hkeys := keysBelow_run events
    refine ⟨roomKey (run events).nextRoomId, createdRoom (run events) c c data q,
      roomKey_ne_empty _, nextKey_unused hkeys, ?_, rfl, ?_, q, _, rfl⟩
    · exact mapSet_of_mapGet_none _ (nextKey_unused hkeys)
    · exact find_rebound c _ _ (exists_client_of_isOpen hc)
  · rintro ⟨roomId, room, -, -, hrooms, -⟩
    by_contra hno
    rw [hinvalid hno] at hrooms
    have := congrArg List.length hrooms
    simp at this

theorem createRoom_iff_valid_witness :
    isOpen (run lobbyRun) 0 = true ∧
      CreatedRoom (run lobbyRun) (handleCreateRoom (run lobbyRun) 0 0 (createRoomMsg (.num 16))) 0 :=
  ⟨by decide,
    (createRoom_iff_valid lobbyRun 0 (createRoomMsg (.num 16)) (by decide)).1.mp
      ⟨16, rfl, by norm_num, by norm_num⟩⟩

/-- C4. In every reachable state, for a connection `c` bound to a room of the
registry and an envelope whose `buildingType` passes the presence test (it is
truthy), whose `x` and `y` are numbers inside the grid, and such that a stored
building of the room has these coordinates: `handleBuild` leaves the state as
it was (the room's buildings and `nextBuildingId` included) but for one
message, sent to `c` and to nobody else: `ERROR` with code `POSITION_OCCUPIED`,
whose text interpolates `x` and `y`. -/
theorem build_on_occupied (events : List Event) (c : Nat) (data : Data) (roomId : String)
    (room : Room) (x y : ℚ)
    (hseat : wsRoomId (run events) c = some roomId)
    (hroom : mapGet (run events).rooms roomId = some room)
    (htype : data.buildingType.truthy = true) (hx : data.x = .num x) (hy : data.y = .num y)
    (hin : 0 ≤ x ∧ x < room.citySize ∧ 0 ≤ y ∧ y < room.citySize)
    (hocc : ∃ b ∈ mapValues room.buildings, b.x = x ∧ b.y = y) :
    handleBuild (run events) c c data =
      { run events with sent := (run events).sent ++
          [(c, .error "POSITION_OCCUPIED"
            [.lit "Position (", .val (.num x), .lit ", ", .val (.num y),
              .lit ") déjà occupée"])] } := by
  have hne := key_ne_empty (keysBelow_run events) hroom
  have hseat1 : truthyId (wsRoomId (run events) c) = some roomId := by
    rw [hseat]
    exact truthyId_some hne
  have hin1 : ¬ (x < 0 ∨ x ≥ room.citySize ∨ y < 0 ∨ y ≥ room.citySize) := by
    rintro (h | h | h | h)
    · exact absurd hin.1 (not_le.mpr h)
    · exact absurd hin.2.1 (not_lt.mpr h)
    · exact absurd hin.2.2.1 (not_le.mpr h)
    · exact absurd hin.2.2.2 (not_lt.mpr h)
  cases hfind : existingBuilding room x y with
  | none =>
    obtain ⟨b, hb, hbx, hby⟩ := hocc
    unfold existingBuilding at hfind
    have := List.find?_eq_none.mp hfind b hb
    simp [hbx, hby] at this
  | some b => exact handleBuild_of_occupied hseat1 hroom htype hx hy hin1 hfind

theorem build_on_occupied_witness :
    wsRoomId (run firstBuildRun) 0 = some "room_1" ∧
      mapGet (run firstBuildRun).rooms "room_1" = some firstBuildRoom ∧
      handleBuild (run firstBuildRun) 0 0 (buildMsg (.str "road") (.num 5) (.num 5)) =
        { run firstBuildRun with sent := (run firstBuildRun).sent ++
            [(0, .error "POSITION_OCCUPIED"
              [.lit "Position (", .val (.num 5), .lit ", ", .val (.num 5),
                .lit ") déjà occupée"])] } :=
  ⟨by decide, by decide,
    build_on_occupied firstBuildRun 0 (buildMsg (.str "road") (.num 5) (.num 5)) "room_1"
      firstBuildRoom 5 5 (by decide) (by decide) (by decide) rfl rfl (by decide)
      ⟨placed 1 "house" 5 5, by decide, rfl, rfl⟩⟩

/-- C5. In every reachable state, for every open connection `c` and every
envelope handled by `handleJoinRoom`: if no room of the registry has the given
`roomId`, the state is left as it was but for one message, `ERROR`
`ROOM_NOT_FOUND` sent to `c`; if the room exists and has 2 players, likewise
with `ERROR` `ROOM_FULL` (so in both cases every players map and every binding
is unchanged and no other connection is sent anything); otherwise the player of
`c` is set in that room, `c` is bound to it and `c` is sent `ROOM_JOINED`. -/
theorem joinRoom_cases (events : List Event) (c : Nat) (data : Data)
    (hc : isOpen (run events) c = true) :
    ((∀ roomId room, data.roomId = .str roomId →
          mapGet (run events).rooms roomId ≠ some room) →
        handleJoinRoom (run events) c c data =
          { run events with sent := (run events).sent ++
              [(c, .error "ROOM_NOT_FOUND" [.lit "Salon introuvable"])] }) ∧
    (∀ roomId room, data.roomId = .str roomId →
        mapGet (run events).rooms roomId = some room →
        (room.players.length = 2 →
          handleJoinRoom (run events) c c data =
            { run events with sent := (run events).sent ++
                [(c, .error "ROOM_FULL" [.lit "Le salon est plein (2/2 joueurs)"])] }) ∧
        (room.players.length ≠ 2 →
          JoinedRoom (run events) (handleJoinRoom (run events) c c data) c roomId room)) := by
  refine ⟨?_, ?_⟩
  · intro hnone
    have hl : lookupRoom (run events) data.roomId = none := by
      cases hfound : lookupRoom (run events) data.roomId with
      | none => rfl
      | some found =>
        obtain ⟨roomId, room⟩ := found
        have h := lookupRoom_eq_some.mp hfound
        exact absurd h.2 (hnone roomId room h.1)
    exact handleJoinRoom_of_none hl
  · intro roomId room hid hroom
    have hl : lookupRoom (run events) data.roomId = some (roomId, room) :=
      lookupRoom_eq_some.mpr ⟨hid, hroom⟩
    refine ⟨?_, ?_⟩
    · intro hfull
      exact handleJoinRoom_of_full hl (by rw [hfull]; exact Nat.le_refl _)
    · intro hfree
      have hcap := capacity_run events (roomId, room) (mem_of_mapGet hroom)
      have hlt : room.players.length < MAX_PLAYERS_PER_ROOM := by
        simp only [MAX_PLAYERS_PER_ROOM] at hcap ⊢
        omega
      rw [handleJoinRoom_of_seat hl hlt]
      refine ⟨joinedRoom (run events) c c data room, newPlayer (run events) c c data,
        ?_, rfl, ?_, rfl, ?_, _, rfl⟩
      · exact mapGet_mapSet_self _ _ _
      · exact mapGet_mapSet_self _ _ _
      · exact find_rebound c _ _ (exists_client_of_isOpen hc)

theorem joinRoom_cases_witness :
    (isOpen (run oneSeatedRun) 1 = true ∧
      handleJoinRoom (run oneSeatedRun) 1 1 (joinRoomMsg (.str "room_7")) =
        { run oneSeatedRun with sent := (run oneSeatedRun).sent ++
            [(1, .error "ROOM_NOT_FOUND" [.lit "Salon introuvable"])] }) ∧
    (mapGet (run oneSeatedRun).rooms "room_1" = some oneSeatedRoom ∧
      JoinedRoom (run oneSeatedRun)
        (handleJoinRoom (run oneSeatedRun) 1 1 (joinRoomMsg (.str "room_1"))) 1 "room_1"
        oneSeatedRoom) ∧
    (isOpen (run twoSeatedRun) 2 = true ∧
      mapGet (run twoSeatedRun).rooms "room_1" = some capacityRoom ∧
      handleJoinRoom (run twoSeatedRun) 2 2 (joinRoomMsg (.str "room_1")) =
        { run twoSeatedRun with sent := (run twoSeatedRun).sent ++
            [(2, .error "ROOM_FULL" [.lit "Le salon est plein (2/2 joueurs)"])] }) :=
  ⟨⟨by decide,
      (joinRoom_cases oneSeatedRun 1 (joinRoomMsg (.str "room_7")) (by decide)).1
        (by
          intro roomId room hid
          have h7 : roomId = "room_7" := by
            have := JVal.str.inj hid
            exact this.symm
          subst h7
          intro h
          have : mapGet (run oneSeatedRun).rooms "room_7" = none := by decide
          rw [this] at h
          cases h)⟩,
    ⟨by decide,
      ((joinRoom_cases oneSeatedRun 1 (joinRoomMsg (.str "room_1")) (by decide)).2
        "room_1" oneSeatedRoom rfl (by decide)).2 (by decide)⟩,
    ⟨by decide, by decide,
      ((joinRoom_cases twoSeatedRun 2 (joinRoomMsg (.str "room_1")) (by decide)).2
        "room_1" capacityRoom rfl (by decide)).1 (by decide)⟩⟩

/-! ## Departures and the directory -/

theorem find_markClosed (c ws : Nat) (l : List Conn) :
    ((l.map (fun k => if k.playerId = ws then { k with readyOpen := false } else k)).find?
      (fun k => decide (k.playerId = c))).bind (fun k => k.roomId) =
    (l.find? (fun k => decide (k.playerId = c))).bind (fun k => k.roomId) := by
  induction l with
  | nil => rfl
  | cons k t ih =>
    have hid : (if k.playerId = ws then { k with readyOpen := false } else k).playerId =
        k.playerId := by
      split <;> rfl
    have hroom : (if k.playerId = ws then { k with readyOpen := false } else k).roomId =
        k.roomId := by
      split <;> rfl
    rw [List.map_cons, List.find?_cons, List.find?_cons, hid]
    by_cases hk : k.playerId = c
    · simp only [hk, decide_True, Option.some_bind]
      rw [← hk]
      exact hroom
    · simp only [hk, decide_False]
      exact ih

theorem wsRoomId_markClosed (s : State) (ws c : Nat) :
    wsRoomId (markClosed s ws) c = wsRoomId s c :=
  find_markClosed c ws s.clients

theorem roomCast_congr {s t : State} (hrooms : t.rooms = s.rooms)
    (hclients : t.clients = s.clients) (roomId : String) (sender : Nat) (m : Msg) :
    roomCast t roomId sender m = roomCast s roomId sender m := by
  unfold roomCast roomAudience isOpen
  rw [hrooms, hclients]

theorem directoryCast_congr {s t : State} (hrooms : t.rooms = s.rooms)
    (hclients : t.clients = s.clients) : directoryCast t = directoryCast s := by
  unfold directoryCast lobby allRooms
  rw [hrooms, hclients]

theorem roomCast_of_empty {s : State} {roomId : String} {room : Room}
    (hroom : mapGet s.rooms roomId = some room) (hempty : room.players = [])
    (sender : Nat) (m : Msg) : roomCast s roomId sender m = [] := by
  unfold roomCast
  rw [hroom]
  simp [roomAudience, mapValues, hempty]

theorem onClose_of_seated {s : State} {c : Nat} {roomId : String} {room : Room}
    (hseat : truthyId (wsRoomId s c) = some roomId)
    (hroom : mapGet s.rooms roomId = some room) :
    onClose s c c =
      if (mapDelete room.players c).length = 0 then
        { pushed (afterLeave s roomId room c)
            (roomCast (afterLeave s roomId room c) roomId c
              (.playerLeft c (pseudoOr (mapGet room.players c))
                (mapDelete room.players c).length)) with
          timers := s.timers ++ [{ due := s.now + GRACE_MS, roomId := roomId }] }
      else
        pushed (afterLeave s roomId room c)
          (roomCast (afterLeave s roomId room c) roomId c
              (.playerLeft c (pseudoOr (mapGet room.players c))
                (mapDelete room.players c).length) ++
            directoryCast (afterLeave s roomId room c)) := by
  unfold onClose
  have hseat1 : truthyId (wsRoomId
      { s with currentConnections := s.currentConnections - 1 } c) = some roomId := hseat
  simp only [hseat1, hroom, broadcastToRoom_eq, broadcastRoomListUpdate_eq, pushed_pushed]
  split <;> rfl

/-- C9 (amended). In every reachable state, when the connection `c` that
closes is bound to a room of the registry: if the room still has a player
after the record of `c` is deleted, the close listener sends `PLAYER_LEFT` to
the room and then the directory, as it stands after the removal, to the lobby;
if the room is left empty it sends nothing and schedules the timer. The timer
callback, in any state, sends the directory (as it stands after the deletion)
to the lobby exactly when it finds the room present and empty and deletes it;
otherwise it sends nothing and deletes nothing. -/
theorem directory_update_on_departure (events : List Event) (c : Nat) (roomId : String)
    (room : Room) (hseat : wsRoomId (run events) c = some roomId)
    (hroom : mapGet (run events).rooms roomId = some room) :
    (mapDelete room.players c ≠ [] →
      (fire (run events) (.close c)).sent =
        (run events).sent ++
          roomCast (fire (run events) (.close c)) roomId c
            (.playerLeft c (pseudoOr (mapGet room.players c))
              (mapDelete room.players c).length) ++
          directoryCast (fire (run events) (.close c))) ∧
    (mapDelete room.players c = [] →
      (fire (run events) (.close c)).sent = (run events).sent ∧
      (fire (run events) (.close c)).timers =
        (run events).timers ++ [{ due := (run events).now + GRACE_MS, roomId := roomId }]) ∧
    (∀ (s : State) (t : Timer) (rest : List Timer), s.timers = t :: rest →
      ((∃ r, mapGet s.rooms t.roomId = some r ∧ r.players = []) →
        (fire s .graceTimer).rooms = mapDelete s.rooms t.roomId ∧
        (fire s .graceTimer).sent = s.sent ++ directoryCast (fire s .graceTimer)) ∧
      ((¬ ∃ r, mapGet s.rooms t.roomId = some r ∧ r.players = []) →
        (fire s .graceTimer).rooms = s.rooms ∧ (fire s .graceTimer).sent = s.sent)) := by
  have hne := key_ne_empty (keysBelow_run events) hroom
  have hseat1 : truthyId (wsRoomId (markClosed (run events) c) c) = some roomId := by
    rw [wsRoomId_markClosed, hseat]
    exact truthyId_some hne
  have hroom1 : mapGet (markClosed (run events) c).rooms roomId = some room := hroom
  have hfire : fire (run events) (.close c) = onClose (markClosed (run events) c) c c := rfl
  refine ⟨?_, ?_, ?_⟩
  · intro hleft
    have hlen : ¬ (mapDelete room.players c).length = 0 := by
      intro h
      exact hleft (List.length_eq_zero.mp h)
    have hfinal := onClose_of_seated hseat1 hroom1
    rw [if_neg hlen] at hfinal
    rw [hfire, hfinal]
    have h1 := roomCast_congr
      (pushed_rooms (afterLeave (markClosed (run events) c) roomId room c)
        (roomCast (afterLeave (markClosed (run events) c) roomId room c) roomId c
            (.playerLeft c (pseudoOr (mapGet room.players c))
              (mapDelete room.players c).length) ++
          directoryCast (afterLeave (markClosed (run events) c) roomId room c)))
      (pushed_clients _ _) roomId c
      (.playerLeft c (pseudoOr (mapGet room.players c)) (mapDelete room.players c).length)
    have h2 := directoryCast_congr
      (pushed_rooms (afterLeave (markClosed (run events) c) roomId room c)
        (roomCast (afterLeave (markClosed (run events) c) roomId room c) roomId c
            (.playerLeft c (pseudoOr (mapGet room.players c))
              (mapDelete room.players c).length) ++
          directoryCast (afterLeave (markClosed (run events) c) roomId room c)))
      (pushed_clients _ _)
    rw [h1, h2, pushed_sent, List.append_assoc]
    rfl
  · intro hempty
    have hlen : (mapDelete room.players c).length = 0 := by
      rw [hempty]
      rfl
    have hfinal := onClose_of_seated hseat1 hroom1
    rw [if_pos hlen] at hfinal
    have hcast : roomCast (afterLeave (markClosed (run events) c) roomId room c) roomId c
        (.playerLeft c (pseudoOr (mapGet room.players c))
          (mapDelete room.players c).length) = [] :=
      roomCast_of_empty (mapGet_mapSet_self _ _ _) hempty c _
    rw [hcast] at hfinal
    rw [hfire, hfinal]
    refine ⟨?_, rfl⟩
    show (run events).sent ++ [] = (run events).sent
    exact List.append_nil _
  · intro s t rest htimers
    have hfire1 : fire s .graceTimer = graceCallback { s with timers := rest } t.roomId := by
      rw [fire_graceTimer, htimers]
    rw [hfire1]
    refine ⟨?_, ?_⟩
    · rintro ⟨r, hr, hempty⟩
      have hr1 : mapGet ({ s with timers := rest } : State).rooms t.roomId = some r := hr
      unfold graceCallback
      simp only [hr1, hempty, List.length_nil, if_true, broadcastRoomListUpdate_eq]
      refine ⟨rfl, ?_⟩
      rfl
    · intro hno
      unfold graceCallback
      cases hr : mapGet s.rooms t.roomId with
      | none =>
        exact ⟨rfl, rfl⟩
      | some r =>
        have hlen : ¬ r.players.length = 0 := by
          intro h
          exact hno ⟨r, hr, List.length_eq_zero.mp h⟩
        dsimp only
        rw [if_neg hlen]
        exact ⟨rfl, rfl⟩

theorem directory_update_on_departure_witness :
    (wsRoomId (run twoSeatedRun) 1 = some "room_1" ∧
      mapGet (run twoSeatedRun).rooms "room_1" = some capacityRoom ∧
      (fire (run twoSeatedRun) (.close 1)).sent =
        (run twoSeatedRun).sent ++
          roomCast (fire (run twoSeatedRun) (.close 1)) "room_1" 1
            (.playerLeft 1 (pseudoOr (mapGet capacityRoom.players 1))
              (mapDelete capacityRoom.players 1).length) ++
          directoryCast (fire (run twoSeatedRun) (.close 1))) ∧
    (wsRoomId (run oneSeatedRun) 0 = some "room_1" ∧
      mapGet (run oneSeatedRun).rooms "room_1" = some oneSeatedRoom ∧
      (fire (run oneSeatedRun) (.close 0)).sent = (run oneSeatedRun).sent) ∧
    ((run (directoryRun.take 5)).timers = [{ due := 30000, roomId := "room_1" }] ∧
      (fire (run (directoryRun.take 5)) .graceTimer).sent =
        (run (directoryRun.take 5)).sent ++
          directoryCast (fire (run (directoryRun.take 5)) .graceTimer)) :=
  ⟨⟨by decide, by decide,
      (directory_update_on_departure twoSeatedRun 1 "room_1" capacityRoom
        (by decide) (by decide)).1 (by decide)⟩,
    ⟨by decide, by decide,
      ((directory_update_on_departure oneSeatedRun 0 "room_1" oneSeatedRoom
        (by decide) (by decide)).2.1 (by decide)).1⟩,
    ⟨by decide,
      (((directory_update_on_departure oneSeatedRun 0 "room_1" oneSeatedRoom
        (by decide) (by decide)).2.2 (run (directoryRun.take 5))
          { due := 30000, roomId := "room_1" } [] (by decide)).1
        ⟨{ oneSeatedRoom with players := [] }, by decide, rfl⟩).2⟩⟩

/-- C9 (the statement fails on the code). Connection 0 sits alone in `room_1`,
connection 1 is open in the lobby. The close of connection 0 removes its player
and leaves the room empty, and sends nothing: no `AVAILABLE_ROOMS` reaches the
lobby at the time of the removal. The timer callback, 30000 ms later, sends
`AVAILABLE_ROOMS` to connection 1. -/
theorem emptying_close_sends_no_directory :
    feasible State.init directoryRun = true ∧
      lobby (run (directoryRun.take 3)) = [1] ∧
      seatedIn (run (directoryRun.take 3)) "room_1" = some [0] ∧
      seatedIn (run (directoryRun.take 4)) "room_1" = some [] ∧
      (run (directoryRun.take 4)).sent = (run (directoryRun.take 3)).sent ∧
      (run directoryRun).sent =
        (run (directoryRun.take 5)).sent ++ [(1, .availableRooms [])] := by
  decide

/-! ## The legacy player table -/

theorem handleBuild_gamePlayers (s : State) (ws playerId : Nat) (data : Data) :
    (handleBuild s ws playerId data).gamePlayers = s.gamePlayers := by
  unfold handleBuild
  split
  · rfl
  · split
    · rfl
    · split
      · split
        · rfl
        · split
          · rfl
          · simp [broadcastToRoom_eq, send_eq]
      · rfl

theorem dispatch_gamePlayers (s : State) (ws playerId : Nat) (data : Data) :
    (dispatch s ws playerId data).gamePlayers = s.gamePlayers := by
  unfold dispatch
  split
  · cases hv : validCitySize data.citySize with
    | none => rw [handleCreateRoom_of_none hv]; rfl
    | some q => rw [handleCreateRoom_of_some hv]; rfl
  · split
    · cases hl : lookupRoom s data.roomId with
      | none => rw [handleJoinRoom_of_none hl]; rfl
      | some found =>
        obtain ⟨roomId, room⟩ := found
        by_cases hfull : room.players.length ≥ MAX_PLAYERS_PER_ROOM
        · rw [handleJoinRoom_of_full hl hfull]; rfl
        · rw [handleJoinRoom_of_seat hl (not_le.mp hfull)]; rfl
    · split
      · exact handleBuild_gamePlayers s ws playerId data
      · split
        · rw [sendFullSync_eq]; rfl
        · split
          · rfl
          · split <;> rfl

theorem touchPlayer_of_empty {s : State} (h : s.gamePlayers = []) (ws playerId : Nat)
    (data : Json) : touchPlayer s ws playerId data = .ok s := by
  unfold touchPlayer
  rw [h]
  rfl

theorem onMessage_of_empty {s : State} (h : s.gamePlayers = []) (c : Nat) (d : Data) :
    onMessage s c c (some (.value d)) = dispatch s c c d := by
  simp only [onMessage, handleMessage, touchPlayer_of_empty h]

theorem onClose_gamePlayers {s : State} (h : s.gamePlayers = []) (c : Nat) :
    (onClose s c c).gamePlayers = [] := by
  unfold onClose
  dsimp only
  split
  · split
    · split
      · simpa [broadcastToRoom_eq] using h
      · simpa [broadcastToRoom_eq, broadcastRoomListUpdate_eq] using h
    · exact h
  · simp [broadcastToOthers_eq, h, mapDelete]

theorem fire_gamePlayers {s : State} (h : s.gamePlayers = []) (e : Event) :
    (fire s e).gamePlayers = [] := by
  cases e with
  | connection =>
    show (onConnection s).gamePlayers = []
    unfold onConnection
    split
    · exact h
    · exact h
  | message ws text =>
    show (onMessage s ws ws text).gamePlayers = []
    cases text with
    | none => exact h
    | some data =>
      cases data with
      | null =>
        simp only [onMessage, handleMessage, touchPlayer_of_empty h]
        exact h
      | value d =>
        rw [onMessage_of_empty h, dispatch_gamePlayers]
        exact h
  | close ws => exact onClose_gamePlayers (s := markClosed s ws) h ws
  | elapse ms => exact h
  | graceTimer =>
    rw [fire_graceTimer]
    split
    · unfold graceCallback
      split
      · split
        · exact h
        · exact h
      · exact h
    · exact h
  | sweepTimer =>
    show (sweepCallback s).gamePlayers = []
    simp [sweepCallback, h]

/-- The table `gameState.players` is empty in every reachable state: nothing
in the code ever adds to it. -/
theorem legacy_players_empty (events : List Event) : (run events).gamePlayers = [] := by
  refine run_invariant (fun s => s.gamePlayers = []) rfl ?_ events
  intro s e hs
  unfold step
  split
  · exact fire_gamePlayers hs e
  · exact hs

/-- In every reachable state the bookkeeping block that opens `handleMessage`
finds no player record and does nothing: an envelope is handled by the
`switch` alone, whatever `playerPseudo` it carries. -/
theorem message_is_dispatch (events : List Event) (c : Nat) (d : Data) :
    fire (run events) (say c d) = dispatch (run events) c c d :=
  onMessage_of_empty (legacy_players_empty events) c d

/-! ## Where the code departs from the specification -/

/-- C6 (the code departs). A seated player sends an envelope carrying a new
pseudo: connection 0 sits in `room_1` as Alice with connection 1, and sends a
`PING` with `playerPseudo` Carol. The run is feasible; afterwards the pseudo of
player 0 in `room_1` is still Alice, and the only message sent is `PONG` to
connection 0: no `PLAYER_PSEUDO_UPDATED`, no `PLAYERS_LIST_UPDATE`. -/
theorem pseudo_update_never_runs :
    feasible State.init (pseudoRun ++ [renamingPing]) = true ∧
      seatedIn (run pseudoRun) "room_1" = some [0, 1] ∧
      pseudoIn (run pseudoRun) "room_1" 0 = some (.str "Alice") ∧
      pseudoIn (run (pseudoRun ++ [renamingPing])) "room_1" 0 = some (.str "Alice") ∧
      (run (pseudoRun ++ [renamingPing])).sent = (run pseudoRun).sent ++ [(0, .pong)] := by
  decide

/-- C7 (the code departs). Connection 0 creates `room_1`, then `room_2`, then
closes. The run is feasible; after the close, connection 0 is no longer open
and its player id is still a key of the players map of `room_1`. -/
theorem close_leaves_ghost :
    feasible State.init ghostRun = true ∧
      isOpen (run ghostRun) 0 = false ∧
      seatedIn (run ghostRun) "room_1" = some [0] ∧
      seatedIn (run ghostRun) "room_2" = some [] := by
  decide

/-- C8 (the code departs). The room `room_1` empties at instant 0, is joined
again at 10000 and empties again at 20000. The run is feasible, every timer
running exactly when due; the timer of the first departure, due at 30000,
deletes the room although it had a player at instant 10000 and has been empty
only since 20000. -/
theorem stale_timer_deletes_early :
    feasible State.init graceRun = true ∧
      ((run (graceRun.take 6)).now = 10000 ∧
        seatedIn (run (graceRun.take 6)) "room_1" = some [1]) ∧
      ((run (graceRun.take 8)).now = 20000 ∧
        seatedIn (run (graceRun.take 8)) "room_1" = some [] ∧
        (run (graceRun.take 8)).timers =
          [{ due := 30000, roomId := "room_1" }, { due := 50000, roomId := "room_1" }]) ∧
      ((run (graceRun.take 9)).now = 30000 ∧
        seatedIn (run (graceRun.take 9)) "room_1" = some []) ∧
      ((run graceRun).now = 30000 ∧ seatedIn (run graceRun) "room_1" = none) := by
  decide

/-- C10 (the code departs). Connection 0 creates `room_1` and then `room_2`, so
that it is bound to `room_2` while its record stays in `room_1`. Connection 1
joins `room_1` and builds there. The run is feasible; connection 0, whose
bound room is `room_2`, is sent the `PLAYER_JOINED` and the `BUILD_BROADCAST`
of `room_1`. -/
theorem broadcast_reaches_other_room :
    feasible State.init crossRun = true ∧
      wsRoomId (run crossRun) 0 = some "room_2" ∧
      wsRoomId (run crossRun) 1 = some "room_1" ∧
      (0, Msg.playerJoined 1 (.str "Joueur") 2 2) ∈ (run crossRun).sent ∧
      (run crossRun).sent = (run (crossRun.take 5)).sent ++
        [(1, .buildConfirmed "building_1" crossBuilding),
         (0, .buildBroadcast crossBuilding)] := by
  decide

/-! ## Coordinates -/

theorem inGrid_of_evolves {r r1 : Room} (h : InGrid r) (hev : Evolves r r1) : InGrid r1 := by
  cases hev with
  | seat pid p hroom hp => exact h
  | leave pid => exact h
  | build b hfree hin hid =>
    intro b1 hb1
    rw [mem_mapValues] at hb1
    obtain ⟨e, he, hb⟩ := hb1
    rcases mem_mapSet he with h1 | h1
    · subst h1
      subst hb
      push_neg at hin
      exact ⟨hin.1, hin.2.1, hin.2.2.1, hin.2.2.2⟩
    · exact h b1 (mem_mapValues.mpr ⟨e, h1, hb⟩)

/-- C11 (amended). In every reachable state, every building stored in a room
has coordinates with 0 ≤ x < citySize and 0 ≤ y < citySize of that room. The
coordinates are numbers; nothing makes them integers. -/
theorem coordinates_in_grid (events : List Event) (x : String × Room)
    (hx : x ∈ (run events).rooms) (b : Building) (hb : b ∈ mapValues x.2.buildings) :
    0 ≤ b.x ∧ b.x < x.2.citySize ∧ 0 ≤ b.y ∧ b.y < x.2.citySize := by
  refine rooms_invariant InGrid ?_ ?_ events x hx b hb
  · rintro r ⟨hnone, -⟩ b1 hb1
    simp [hnone, mapValues] at hb1
  · intro r r1 h hev
    exact inGrid_of_evolves h hev

theorem coordinates_in_grid_witness :
    ("room_1", buildRoom) ∈ (run buildRun).rooms ∧
      placed 2 "road" 5 6 ∈ mapValues buildRoom.buildings ∧
      (0 ≤ (placed 2 "road" 5 6).x ∧ (placed 2 "road" 5 6).x < buildRoom.citySize ∧
        0 ≤ (placed 2 "road" 5 6).y ∧ (placed 2 "road" 5 6).y < buildRoom.citySize) :=
  ⟨by decide, by decide,
    coordinates_in_grid buildRun ("room_1", buildRoom) (by decide) (placed 2 "road" 5 6)
      (by decide)⟩

/-- C11 (the statement fails on the code). Connection 0 creates `room_1` with
`citySize` 16 and sends `BUILD` with `x` = 1/2 and `y` = 5, both JSON numbers.
The run is feasible and the building is stored at (1/2, 5); 1/2 is not an
integer. -/
theorem fractional_cell_is_stored :
    feasible State.init fractionRun = true ∧
      cellsIn (run fractionRun) "room_1" = some [(half, 5)] ∧
      ¬ ∃ n : ℤ, half = (n : ℚ) := by
  refine ⟨by decide, by decide, ?_⟩
  rintro ⟨n, h⟩
  have hden := congrArg Rat.den h
  simp [half] at hden

/-! ## Synchronisation -/

theorem dispatch_sync {s : State} {c : Nat} {d : Data} (htype : d.type = .str "SYNC_REQUEST") :
    dispatch s c c d = pushed s [(c, syncReply s (wsRoomId s c))] := by
  unfold dispatch
  rw [htype]
  simp [sendFullSync_eq]

theorem syncReply_of_seated {s : State} {roomId : String} {room : Room} (hne : roomId ≠ "")
    (hroom : mapGet s.rooms roomId = some room) :
    syncReply s (some roomId) = snapshot room := by
  unfold syncReply
  rw [truthyId_some hne]
  simp only [hroom]
  unfold snapshot syncPlayersOf mapValues
  rw [List.map_map]
  rfl

/-- C12. In every reachable state, for a connection `c` bound to a room of the
registry, handling an envelope of type `SYNC_REQUEST` leaves the whole state
as it was (registry, players, buildings, counters, bindings) but for one
message sent to `c`: `FULL_SYNC` with the room's `citySize` and `gameTime`,
the values of its buildings map (each stored building once) and one
`id, pseudo, connectedAt` entry per entry of its players map. Handling the same
envelope again sends the same `FULL_SYNC` again and changes nothing else. -/
theorem sync_request_read_only (events : List Event) (c : Nat) (roomId : String)
    (room : Room) (d : Data) (htype : d.type = .str "SYNC_REQUEST")
    (hseat : wsRoomId (run events) c = some roomId)
    (hroom : mapGet (run events).rooms roomId = some room) :
    fire (run events) (say c d) =
        { run events with sent := (run events).sent ++ [(c, snapshot room)] } ∧
      fire (fire (run events) (say c d)) (say c d) =
        { run events with
          sent := (run events).sent ++ [(c, snapshot room), (c, snapshot room)] } := by
  have hne := key_ne_empty (keysBelow_run events) hroom
  have hempty := legacy_players_empty events
  have hfirst : fire (run events) (say c d) = pushed (run events) [(c, snapshot room)] := by
    show onMessage (run events) c c (some (.value d)) = _
    rw [onMessage_of_empty hempty, dispatch_sync htype, hseat, syncReply_of_seated hne hroom]
  refine ⟨hfirst, ?_⟩
  rw [hfirst]
  show onMessage (pushed (run events) [(c, snapshot room)]) c c (some (.value d)) = _
  rw [onMessage_of_empty (s := pushed (run events) [(c, snapshot room)]) hempty,
    dispatch_sync htype, wsRoomId_pushed, hseat,
    syncReply_of_seated (s := pushed (run events) [(c, snapshot room)]) hne hroom,
    pushed_pushed]
  rfl

theorem sync_request_read_only_witness :
    wsRoomId (run twoSeatedRun) 1 = some "room_1" ∧
      mapGet (run twoSeatedRun).rooms "room_1" = some capacityRoom ∧
      fire (run twoSeatedRun) (say 1 syncRequestMsg) =
        { run twoSeatedRun with
          sent := (run twoSeatedRun).sent ++ [(1, snapshot capacityRoom)] } :=
  ⟨by decide, by decide,
    (sync_request_read_only twoSeatedRun 1 "room_1" capacityRoom syncRequestMsg rfl
      (by decide) (by decide)).1⟩

/-! ## Room ids announced -/

theorem createdIds_append (a b : List (Nat × Msg)) :
    createdIds (a ++ b) = createdIds a ++ createdIds b := by
  simp [createdIds, List.filterMap_append]

theorem createdIds_cast {m : Msg} (hm : createdId m = none) (targets : List Nat) :
    createdIds (targets.map (fun c => (c, m))) = [] := by
  induction targets with
  | nil => rfl
  | cons c t ih =>
    simp only [createdIds, List.map_cons, List.filterMap_cons, hm] at ih ⊢
    exact ih

theorem createdIds_single {m : Msg} (hm : createdId m = none) (c : Nat) :
    createdIds [(c, m)] = [] := createdIds_cast hm [c]

theorem createdIds_roomCast {m : Msg} (hm : createdId m = none) (s : State)
    (roomId : String) (sender : Nat) : createdIds (roomCast s roomId sender m) = [] := by
  unfold roomCast
  split
  · rfl
  · exact createdIds_cast hm _

theorem createdIds_directoryCast (s : State) : createdIds (directoryCast s) = [] :=
  createdIds_cast (m := Msg.availableRooms (allRooms s)) rfl _

theorem createdIds_playersCast (s : State) (roomId : Option String) :
    createdIds (playersCast s roomId) = [] := by
  unfold playersCast
  split
  · exact createdIds_cast (m := Msg.playersListUpdate _) rfl _
  · split
    · rfl
    · exact createdIds_cast (m := Msg.playersListUpdate _) rfl _

theorem createdId_syncReply (s : State) (roomId : Option String) :
    createdId (syncReply s roomId) = none := by
  unfold syncReply
  split
  · rfl
  · split <;> rfl

theorem createdIds_cons_none {m : Msg} (hm : createdId m = none) (c : Nat)
    (l : List (Nat × Msg)) : createdIds ((c, m) :: l) = createdIds l := by
  simp only [createdIds, List.filterMap_cons, hm]

theorem createdIds_cons_some {m : Msg} {r : String} (hm : createdId m = some r) (c : Nat)
    (l : List (Nat × Msg)) : createdIds ((c, m) :: l) = r :: createdIds l := by
  simp only [createdIds, List.filterMap_cons, hm]

theorem createdIds_nil : createdIds [] = [] := rfl

theorem createdIds_pushed_quiet {s : State} {l : List (Nat × Msg)} (hl : createdIds l = []) :
    createdIds (pushed s l).sent = createdIds s.sent := by
  rw [pushed_sent, createdIds_append, hl, List.append_nil]

/-! ## Every turn is a transition -/

theorem Transition.of_pushed (s : State) {l : List (Nat × Msg)} (hl : createdIds l = []) :
    Transition s (pushed s l) :=
  Transition.quiet rfl rfl rfl rfl (createdIds_pushed_quiet hl)

theorem Transition.of_error (s : State) (c : Nat) (code : String) (message : List Frag) :
    Transition s (pushed s [(c, .error code message)]) :=
  Transition.of_pushed s (createdIds_cons_none (m := Msg.error code message) rfl c [])

theorem handleCreateRoom_transition (s : State) (c : Nat) (data : Data) :
    Transition s (handleCreateRoom s c c data) := by
  cases hv : validCitySize data.citySize with
  | none =>
    rw [handleCreateRoom_of_none hv]
    exact Transition.of_error s c _ _
  | some q =>
    rw [handleCreateRoom_of_some hv]
    refine Transition.create c (newPlayer s c c data)
      ⟨createdRoom s c c data q, rfl, rfl⟩ rfl rfl rfl ?_
    rw [pushed_sent, createdIds_append, createdIds_append, createdIds_directoryCast,
      List.append_nil]
    rw [createdIds_cons_some (m := Msg.roomCreated (roomKey s.nextRoomId) q c) rfl,
      createdIds_cons_none (createdId_syncReply _ _), createdIds_nil]
    rfl

theorem handleJoinRoom_transition (s : State) (c : Nat) (data : Data) :
    Transition s (handleJoinRoom s c c data) := by
  cases hl : lookupRoom s data.roomId with
  | none =>
    rw [handleJoinRoom_of_none hl]
    exact Transition.of_error s c _ _
  | some found =>
    obtain ⟨roomId, room⟩ := found
    have hget := (lookupRoom_eq_some.mp hl).2
    by_cases hfull : room.players.length ≥ MAX_PLAYERS_PER_ROOM
    · rw [handleJoinRoom_of_full hl hfull]
      exact Transition.of_error s c _ _
    · rw [handleJoinRoom_of_seat hl (not_le.mp hfull)]
      refine Transition.join c roomId room (newPlayer s c c data) hget rfl rfl rfl rfl ?_
      rw [pushed_sent, createdIds_append, createdIds_append, createdIds_append,
        createdIds_append, createdIds_directoryCast, createdIds_playersCast,
        createdIds_roomCast (m := Msg.playerJoined _ _ _ _) rfl,
        createdIds_cons_none (m := Msg.roomJoined roomId room.citySize c) rfl,
        createdIds_cons_none (createdId_syncReply _ _), createdIds_nil]
      simp only [List.append_nil]
      rfl

theorem handleBuild_transition (s : State) (c : Nat) (data : Data) :
    Transition s (handleBuild s c c data) := by
  cases hseat : truthyId (wsRoomId s c) with
  | none =>
    have : handleBuild s c c data = pushed s [(c, .error "NOT_IN_ROOM"
        [.lit "Vous n'êtes pas dans un salon"])] := by
      unfold handleBuild
      rw [hseat]
      rfl
    rw [this]
    exact Transition.of_error s c _ _
  | some roomId =>
    cases hroom : mapGet s.rooms roomId with
    | none =>
      have : handleBuild s c c data = pushed s [(c, .error "ROOM_NOT_FOUND"
          [.lit "Salon introuvable"])] := by
        unfold handleBuild
        rw [hseat]
        simp only [hroom]
        rfl
      rw [this]
      exact Transition.of_error s c _ _
    | some room =>
      by_cases hdata : data.buildingType.truthy = true ∧
          ∃ x y, data.x = .num x ∧ data.y = .num y
      · obtain ⟨htype, x, y, hx, hy⟩ := hdata
        by_cases hin : x < 0 ∨ x ≥ room.citySize ∨ y < 0 ∨ y ≥ room.citySize
        · have : handleBuild s c c data = pushed s [(c, .error "OUT_OF_BOUNDS"
              [.lit "Position hors limites"])] := by
            unfold handleBuild
            rw [hseat]
            simp only [hroom, htype, hx, hy, JVal.asNumber, hin, if_true]
            rfl
          rw [this]
          exact Transition.of_error s c _ _
        · cases hocc : existingBuilding room x y with
          | some b =>
            rw [handleBuild_of_occupied hseat hroom htype hx hy hin hocc]
            exact Transition.of_error s c _ _
          | none =>
            rw [handleBuild_of_free hseat hroom htype hx hy hin hocc]
            refine Transition.build roomId room (newBuilding s c data room x y) hroom
              rfl rfl rfl rfl ?_
            rw [pushed_sent, createdIds_append,
              createdIds_cons_none (m := Msg.buildConfirmed _ _) rfl,
              createdIds_roomCast (m := Msg.buildBroadcast _) rfl, List.append_nil]
            rfl
      · have : handleBuild s c c data = pushed s [(c, .error "INVALID_BUILD_DATA"
            [.lit "Données de construction invalides"])] := by
          unfold handleBuild
          rw [hseat]
          simp only [hroom]
          split
          · next x y h1 h2 h3 =>
            exfalso
            apply hdata
            refine ⟨h1, x, y, ?_, ?_⟩
            · cases hdx : data.x <;> simp [hdx, JVal.asNumber] at h2
              rw [h2]
            · cases hdy : data.y <;> simp [hdy, JVal.asNumber] at h3
              rw [h3]
          · rfl
        rw [this]
        exact Transition.of_error s c _ _

theorem dispatch_transition (s : State) (c : Nat) (data : Data) :
    Transition s (dispatch s c c data) := by
  unfold dispatch
  split
  · exact handleCreateRoom_transition s c data
  · split
    · exact handleJoinRoom_transition s c data
    · split
      · exact handleBuild_transition s c data
      · split
        · rw [sendFullSync_eq]
          exact Transition.of_pushed s (createdIds_single (createdId_syncReply _ _) c)
        · split
          · exact Transition.quiet rfl rfl rfl rfl rfl
          · split
            · exact Transition.of_pushed s (createdIds_cons_none (m := Msg.pong) rfl c [])
            · exact Transition.of_error s c _ _

theorem onMessage_transition {s : State} (h : s.gamePlayers = []) (c : Nat)
    (message : Option Json) : Transition s (onMessage s c c message) := by
  cases message with
  | none => exact Transition.of_error s c _ _
  | some data =>
    cases data with
    | null =>
      simp only [onMessage, handleMessage, touchPlayer_of_empty h]
      exact Transition.of_error s c _ _
    | value d =>
      rw [onMessage_of_empty h]
      exact dispatch_transition s c d

theorem onClose_seats (s : State) (c : Nat) :
    ((onClose s c c).rooms = s.rooms ∨ ∃ roomId room, mapGet s.rooms roomId = some room ∧
        (onClose s c c).rooms =
          mapSet s.rooms roomId { room with players := mapDelete room.players c }) ∧
      (onClose s c c).nextRoomId = s.nextRoomId ∧ (onClose s c c).clients = s.clients ∧
      (onClose s c c).nextUuid = s.nextUuid ∧
      createdIds (onClose s c c).sent = createdIds s.sent := by
  cases hseat : truthyId (wsRoomId s c) with
  | none =>
    have hseat1 : truthyId (wsRoomId
        { s with currentConnections := s.currentConnections - 1 } c) = none := hseat
    have : onClose s c c = pushed
        { s with currentConnections := s.currentConnections - 1,
                 gamePlayers := mapDelete s.gamePlayers c }
        ((((s.clients.filter (fun k => decide (k.playerId ≠ c) && k.readyOpen)).map
          (fun k => k.playerId)).map
          (fun k => (k, Msg.playerLeft c (pseudoOr (mapGet s.gamePlayers c))
            (mapDelete s.gamePlayers c).length)))) := by
      unfold onClose
      simp only [hseat1, broadcastToOthers_eq]
    rw [this]
    refine ⟨Or.inl rfl, rfl, rfl, rfl, ?_⟩
    rw [pushed_sent, createdIds_append, createdIds_cast (m := Msg.playerLeft _ _ _) rfl,
      List.append_nil]
  | some roomId =>
    cases hroom : mapGet s.rooms roomId with
    | none =>
      have hseat1 : truthyId (wsRoomId
          { s with currentConnections := s.currentConnections - 1 } c) = some roomId := hseat
      have : onClose s c c = { s with currentConnections := s.currentConnections - 1 } := by
        unfold onClose
        simp only [hseat1, hroom]
      rw [this]
      exact ⟨Or.inl rfl, rfl, rfl, rfl, rfl⟩
    | some room =>
      rw [onClose_of_seated hseat hroom]
      have hcast := createdIds_roomCast
        (m := Msg.playerLeft c (pseudoOr (mapGet room.players c))
          (mapDelete room.players c).length) rfl (afterLeave s roomId room c) roomId c
      split
      · refine ⟨Or.inr ⟨roomId, room, hroom, rfl⟩, rfl, rfl, rfl, ?_⟩
        show createdIds (s.sent ++ _) = _
        rw [createdIds_append, hcast, List.append_nil]
      · refine ⟨Or.inr ⟨roomId, room, hroom, rfl⟩, rfl, rfl, rfl, ?_⟩
        rw [pushed_sent, createdIds_append, createdIds_append, hcast,
          createdIds_directoryCast, List.append_nil, List.append_nil]
        rfl

theorem fire_transition {s : State} (h : s.gamePlayers = []) (e : Event) :
    Transition s (fire s e) := by
  cases e with
  | connection =>
    show Transition s (onConnection s)
    unfold onConnection
    split
    · exact Transition.quiet rfl rfl rfl rfl rfl
    · refine Transition.connect rfl rfl rfl rfl ?_
      rw [send_eq, pushed_sent, createdIds_append,
        createdIds_cons_none (m := Msg.availableRooms _) rfl, createdIds_nil, List.append_nil]
  | message ws text => exact onMessage_transition h ws text
  | close ws =>
    obtain ⟨h1, h2, h3, h4, h5⟩ := onClose_seats (markClosed s ws) ws
    exact Transition.close ws h1 h2 h3 h4 h5
  | elapse ms => exact Transition.quiet rfl rfl rfl rfl rfl
  | graceTimer =>
    rw [fire_graceTimer]
    split
    · next t rest _ =>
      unfold graceCallback
      cases hroom : mapGet s.rooms t.roomId with
      | none => exact Transition.quiet rfl rfl rfl rfl rfl
      | some room =>
        dsimp only
        split
        · next hlen =>
          refine Transition.expire t.roomId room hroom (List.length_eq_zero.mp hlen)
            rfl rfl rfl rfl ?_
          rw [broadcastRoomListUpdate_eq, pushed_sent, createdIds_append,
            createdIds_directoryCast, List.append_nil]
        · exact Transition.quiet rfl rfl rfl rfl rfl
    · exact Transition.quiet rfl rfl rfl rfl rfl
  | sweepTimer => exact Transition.quiet rfl rfl rfl rfl rfl

theorem step_transition {s : State} (h : s.gamePlayers = []) (e : Event) :
    Transition s (step s e) := by
  unfold step
  split
  · exact fire_transition h e
  · exact Transition.quiet rfl rfl rfl rfl rfl

theorem step_gamePlayers {s : State} (h : s.gamePlayers = []) (e : Event) :
    (step s e).gamePlayers = [] := by
  unfold step
  split
  · exact fire_gamePlayers h e
  · exact h

/-- A property that holds at process start and that every transition keeps
holds in every reachable state. -/
theorem transition_invariant (P : State → Prop) (hinit : P State.init)
    (htrans : ∀ s t, P s → Transition s t → P t) (events : List Event) : P (run events) := by
  have hboth : (run events).gamePlayers = [] ∧ P (run events) := by
    refine run_invariant (fun s => s.gamePlayers = [] ∧ P s) ⟨rfl, hinit⟩ ?_ events
    rintro s e ⟨h1, h2⟩
    exact ⟨step_gamePlayers h1 e, htrans s _ h2 (step_transition h1 e)⟩
  exact hboth.2

/-! ## Identifiers -/

theorem buildingKey_injective {a b : Nat} (h : buildingKey a = buildingKey b) : a = b := by
  unfold buildingKey at h
  have := congrArg String.data h
  simp only [String.data_append, List.append_cancel_left_eq] at this
  exact toString_nat_injective (String.ext this)

theorem nextBuildingKey_unused {r : Room} (h : BuildingKeysInOrder r) :
    mapGet r.buildings (buildingKey r.nextBuildingId) = none := by
  rw [mapGet_eq_none_iff]
  intro e he hkey
  have hmem : e.1 ∈ r.buildings.map Prod.fst := List.mem_map.mpr ⟨e, he, rfl⟩
  rw [h.2, List.mem_map] at hmem
  obtain ⟨k, hk, hke⟩ := hmem
  rw [List.mem_range'_1] at hk
  rw [← hke] at hkey
  have := buildingKey_injective hkey
  have h1 := h.1
  omega

theorem buildingKeys_nodup {r : Room} (h : BuildingKeysInOrder r) :
    (r.buildings.map Prod.fst).Nodup := by
  rw [h.2]
  refine List.Nodup.map ?_ (List.nodup_range' 1 _)
  intro a b hab
  exact buildingKey_injective hab

theorem buildingKeys_of_evolves {r r1 : Room} (h : BuildingKeysInOrder r)
    (hev : Evolves r r1) : BuildingKeysInOrder r1 := by
  cases hev with
  | seat pid p hroom hp => exact h
  | leave pid => exact h
  | build b hfree hin hid =>
    have hkey : b.id = buildingKey r.nextBuildingId := hid
    have hunused := nextBuildingKey_unused h
    refine ⟨Nat.le_add_left 1 _, ?_⟩
    show (mapSet r.buildings b.id b).map Prod.fst =
      (List.range' 1 (r.nextBuildingId + 1 - 1)).map buildingKey
    rw [hkey, mapSet_of_mapGet_none b hunused]
    have hn : r.nextBuildingId + 1 - 1 = (r.nextBuildingId - 1) + 1 := by
      have := h.1
      omega
    rw [hn, List.range'_1_concat, List.map_append, List.map_append, h.2]
    have h1 : 1 + (r.nextBuildingId - 1) = r.nextBuildingId := by
      have := h.1
      omega
    simp [h1]

theorem buildingKeys_run (events : List Event) :
    ∀ x ∈ (run events).rooms, BuildingKeysInOrder x.2 := by
  refine rooms_invariant BuildingKeysInOrder ?_ ?_ events
  · rintro r ⟨hnone, hone, -⟩
    refine ⟨by omega, ?_⟩
    rw [hnone, hone]
    rfl
  · intro r r1 h hev
    exact buildingKeys_of_evolves h hev

theorem createdIds_run (events : List Event) :
    (∀ r ∈ createdIds (run events).sent, ∃ k, k < (run events).nextRoomId ∧ r = roomKey k) ∧
      (createdIds (run events).sent).Nodup := by
  refine transition_invariant
    (fun s => (∀ r ∈ createdIds s.sent, ∃ k, k < s.nextRoomId ∧ r = roomKey k) ∧
      (createdIds s.sent).Nodup) ?_ ?_ events
  · refine ⟨?_, List.nodup_nil⟩
    intro r hr
    simp [State.init, createdIds] at hr
  · rintro s t ⟨hbelow, hnodup⟩ htrans
    have hsame : t.nextRoomId = s.nextRoomId → createdIds t.sent = createdIds s.sent →
        (∀ r ∈ createdIds t.sent, ∃ k, k < t.nextRoomId ∧ r = roomKey k) ∧
          (createdIds t.sent).Nodup := by
      intro h1 h2
      rw [h1, h2]
      exact ⟨hbelow, hnodup⟩
    cases htrans with
    | quiet hrooms hnext hclients huuid hlog => exact hsame hnext hlog
    | connect hrooms hnext hclients huuid hlog => exact hsame hnext hlog
    | join c roomId room p hroom hrooms hnext hclients huuid hlog => exact hsame hnext hlog
    | build roomId room b hroom hrooms hnext hclients huuid hlog => exact hsame hnext hlog
    | close c hrooms hnext hclients huuid hlog => exact hsame hnext hlog
    | expire roomId room hroom hempty hrooms hnext hclients huuid hlog =>
      exact hsame hnext hlog
    | create c p hrooms hnext hclients huuid hlog =>
      rw [hnext, hlog]
      refine ⟨?_, ?_⟩
      · intro r hr
        rcases List.mem_append.mp hr with h1 | h1
        · obtain ⟨k, hk, hr1⟩ := hbelow r h1
          exact ⟨k, by omega, hr1⟩
        · exact ⟨s.nextRoomId, by omega, by simpa using h1⟩
      · refine List.Nodup.append hnodup (List.nodup_singleton _) ?_
        intro r h1 h2
        obtain ⟨k, hk, hr1⟩ := hbelow r h1
        have h3 : r = roomKey s.nextRoomId := by simpa using h2
        rw [hr1] at h3
        have := roomKey_injective h3
        omega

/-- C13. Identifiers are never reused. Along every run, the room ids announced
by `ROOM_CREATED` messages are pairwise distinct (rooms deleted meanwhile
included), and the next room id is not a key of the registry. In every room of
a reachable registry, the keys of the buildings map are `building_1`, ..., in
the order the room's counter gave them out, they are pairwise distinct, and
the next building id is not among them, so that storing the next building
overwrites no entry. -/
theorem identifiers_never_reused (events : List Event) (x : String × Room)
    (hx : x ∈ (run events).rooms) :
    (createdIds (run events).sent).Nodup ∧
      mapGet (run events).rooms (roomKey (run events).nextRoomId) = none ∧
      x.2.buildings.map Prod.fst =
        (List.range' 1 (x.2.nextBuildingId - 1)).map buildingKey ∧
      (x.2.buildings.map Prod.fst).Nodup ∧
      mapGet x.2.buildings (buildingKey x.2.nextBuildingId) = none := by
  have hkeys := buildingKeys_run events x hx
  exact ⟨(createdIds_run events).2, nextKey_unused (keysBelow_run events), hkeys.2,
    buildingKeys_nodup hkeys, nextBuildingKey_unused hkeys⟩

theorem identifiers_never_reused_witness :
    ("room_1", buildRoom) ∈ (run buildRun).rooms ∧
      (createdIds (run buildRun).sent).Nodup ∧
      mapGet (run buildRun).rooms (roomKey (run buildRun).nextRoomId) = none ∧
      buildRoom.buildings.map Prod.fst =
        (List.range' 1 (buildRoom.nextBuildingId - 1)).map buildingKey ∧
      (buildRoom.buildings.map Prod.fst).Nodup ∧
      mapGet buildRoom.buildings (buildingKey buildRoom.nextBuildingId) = none :=
  ⟨by decide, identifiers_never_reused buildRun ("room_1", buildRoom) (by decide)⟩

/-! ## Seats -/

theorem mapGet_mapDelete_ne {κ β : Type} [DecidableEq κ] (m : List (κ × β)) {k j : κ}
    (h : k ≠ j) : mapGet (mapDelete m k) j = mapGet m j := by
  induction m with
  | nil => rfl
  | cons e t ih =>
    obtain ⟨k', v'⟩ := e
    by_cases hk : k' = k
    · subst hk
      simp [mapDelete, mapGet, h, ih]
    · by_cases hj : k' = j
      · subst hj
        simp [mapDelete, mapGet, hk]
      · simp [mapDelete, mapGet, hk, hj, ih]

theorem ids_setWsRoomId (s : State) (c : Nat) (roomId : String) :
    (setWsRoomId s c roomId).clients.map (fun k => k.playerId) =
      s.clients.map (fun k => k.playerId) := by
  unfold setWsRoomId
  dsimp only
  rw [List.map_map]
  refine List.map_congr_left ?_
  intro k _
  show (if k.playerId = c then { k with roomId := some roomId } else k).playerId = k.playerId
  split <;> rfl

theorem ids_markClosed (s : State) (c : Nat) :
    (markClosed s c).clients.map (fun k => k.playerId) =
      s.clients.map (fun k => k.playerId) := by
  unfold markClosed
  dsimp only
  rw [List.map_map]
  refine List.map_congr_left ?_
  intro k _
  show (if k.playerId = c then { k with readyOpen := false } else k).playerId = k.playerId
  split <;> rfl

theorem idsInOrder_of_transition {s t : State} (h : IdsInOrder s) (htrans : Transition s t) :
    IdsInOrder t := by
  unfold IdsInOrder at h ⊢
  cases htrans with
  | quiet hrooms hnext hclients huuid hlog => rw [hclients, huuid, h]
  | connect hrooms hnext hclients huuid hlog =>
    rw [hclients, huuid, List.map_append, h, List.range_succ]
    rfl
  | create c p hrooms hnext hclients huuid hlog => rw [hclients, huuid, ids_setWsRoomId, h]
  | join c roomId room p hroom hrooms hnext hclients huuid hlog =>
    rw [hclients, huuid, ids_setWsRoomId, h]
  | build roomId room b hroom hrooms hnext hclients huuid hlog => rw [hclients, huuid, h]
  | close c hrooms hnext hclients huuid hlog => rw [hclients, huuid, ids_markClosed, h]
  | expire roomId room hroom hempty hrooms hnext hclients huuid hlog =>
    rw [hclients, huuid, h]

theorem idsInOrder_run (events : List Event) : IdsInOrder (run events) :=
  transition_invariant IdsInOrder rfl (fun _ _ h htrans => idsInOrder_of_transition h htrans)
    events

theorem keysBelow_of_transition {s t : State} (h : KeysBelow s) (htrans : Transition s t) :
    KeysBelow t := by
  have hkeep : t.nextRoomId = s.nextRoomId →
      (∀ x ∈ t.rooms, ∃ y ∈ s.rooms, x.1 = y.1) → KeysBelow t := by
    intro hnext hsub x hx
    obtain ⟨y, hy, hxy⟩ := hsub x hx
    obtain ⟨k, hk, hyk⟩ := h y hy
    exact ⟨k, by omega, by rw [hxy, hyk]⟩
  have hset : ∀ (roomId : String) (room room1 : Room), mapGet s.rooms roomId = some room →
      ∀ x ∈ mapSet s.rooms roomId room1, ∃ y ∈ s.rooms, x.1 = y.1 := by
    intro roomId room room1 hroom x hx
    rcases mem_mapSet hx with h1 | h1
    · exact ⟨(roomId, room), mem_of_mapGet hroom, by rw [h1]⟩
    · exact ⟨x, h1, rfl⟩
  cases htrans with
  | quiet hrooms hnext hclients huuid hlog =>
    exact hkeep hnext (fun x hx => ⟨x, by rw [← hrooms]; exact hx, rfl⟩)
  | connect hrooms hnext hclients huuid hlog =>
    exact hkeep hnext (fun x hx => ⟨x, by rw [← hrooms]; exact hx, rfl⟩)
  | create c p hrooms hnext hclients huuid hlog =>
    obtain ⟨room, -, hrooms⟩ := hrooms
    intro x hx
    rw [hrooms] at hx
    rw [hnext]
    rcases mem_mapSet hx with h1 | h1
    · exact ⟨s.nextRoomId, by omega, by rw [h1]⟩
    · obtain ⟨k, hk, hxk⟩ := h x h1
      exact ⟨k, by omega, hxk⟩
  | join c roomId room p hroom hrooms hnext hclients huuid hlog =>
    exact hkeep hnext (fun x hx => hset roomId room _ hroom x (by rw [← hrooms]; exact hx))
  | build roomId room b hroom hrooms hnext hclients huuid hlog =>
    exact hkeep hnext (fun x hx => hset roomId room _ hroom x (by rw [← hrooms]; exact hx))
  | close c hrooms hnext hclients huuid hlog =>
    rcases hrooms with hrooms | ⟨roomId, room, hroom, hrooms⟩
    · exact hkeep hnext (fun x hx => ⟨x, by rw [← hrooms]; exact hx, rfl⟩)
    · exact hkeep hnext (fun x hx => hset roomId room _ hroom x (by rw [← hrooms]; exact hx))
  | expire roomId room hroom hempty hrooms hnext hclients huuid hlog =>
    exact hkeep hnext (fun x hx => ⟨x, (mem_mapDelete (by rw [← hrooms]; exact hx)).1, rfl⟩)

theorem seat_kept_mapSet {rooms : List (String × Room)} {roomId0 : String}
    {room room1 : Room} (hroom : mapGet rooms roomId0 = some room) {roomId : String} {j : Nat}
    (hold : ∃ r p, mapGet rooms roomId = some r ∧ mapGet r.players j = some p)
    (hkeep : ∀ p, mapGet room.players j = some p → ∃ p1, mapGet room1.players j = some p1) :
    ∃ r p, mapGet (mapSet rooms roomId0 room1) roomId = some r ∧
      mapGet r.players j = some p := by
  obtain ⟨r, p, hr, hp⟩ := hold
  by_cases hsame : roomId0 = roomId
  · subst hsame
    rw [hroom] at hr
    have hrr : room = r := by simpa using hr
    subst hrr
    obtain ⟨p1, hp1⟩ := hkeep p hp
    exact ⟨room1, p1, mapGet_mapSet_self _ _ _, hp1⟩
  · exact ⟨r, p, by rw [mapGet_mapSet_ne _ _ hsame]; exact hr, hp⟩

theorem seatsHeld_of_transition {s t : State} (hkeys : KeysBelow s) (h : SeatsHeld s)
    (htrans : Transition s t) : SeatsHeld t := by
  cases htrans with
  | quiet hrooms hnext hclients huuid hlog =>
    intro k hk hopen roomId hbound
    rw [hrooms]
    exact h k (by rw [← hclients]; exact hk) hopen roomId hbound
  | connect hrooms hnext hclients huuid hlog =>
    intro k hk hopen roomId hbound
    rw [hrooms]
    rw [hclients] at hk
    rcases List.mem_append.mp hk with h1 | h1
    · exact h k h1 hopen roomId hbound
    · have hk1 : k = { playerId := s.nextUuid, roomId := none, readyOpen := true } := by
        simpa using h1
      rw [hk1] at hbound
      cases hbound
  | create c p hrooms hnext hclients huuid hlog =>
    obtain ⟨room, hplayers, hrooms⟩ := hrooms
    intro k1 hk1 hopen roomId hbound
    rw [hclients] at hk1
    obtain ⟨k, hk, hf⟩ := List.mem_map.mp hk1
    rw [hrooms]
    by_cases hc : k.playerId = c
    · rw [if_pos hc] at hf
      subst hf
      have hid : roomKey s.nextRoomId = roomId := by simpa using hbound
      subst hid
      refine ⟨room, p, mapGet_mapSet_self _ _ _, ?_⟩
      show mapGet room.players k.playerId = some p
      rw [hplayers, hc]
      simp [mapGet]
    · rw [if_neg hc] at hf
      subst hf
      obtain ⟨r, p0, hr, hp0⟩ := h k hk hopen roomId hbound
      have hne : roomKey s.nextRoomId ≠ roomId := by
        intro heq
        rw [← heq, nextKey_unused hkeys] at hr
        cases hr
      exact ⟨r, p0, by rw [mapGet_mapSet_ne _ _ hne]; exact hr, hp0⟩
  | join c roomId0 room p hroom hrooms hnext hclients huuid hlog =>
    intro k1 hk1 hopen roomId hbound
    rw [hclients] at hk1
    obtain ⟨k, hk, hf⟩ := List.mem_map.mp hk1
    rw [hrooms]
    by_cases hc : k.playerId = c
    · rw [if_pos hc] at hf
      subst hf
      have hid : roomId0 = roomId := by simpa using hbound
      subst hid
      refine ⟨_, p, mapGet_mapSet_self _ _ _, ?_⟩
      show mapGet (mapSet room.players c p) k.playerId = some p
      rw [hc]
      exact mapGet_mapSet_self _ _ _
    · rw [if_neg hc] at hf
      subst hf
      refine seat_kept_mapSet hroom (h k hk hopen roomId hbound) ?_
      intro p0 hp0
      refine ⟨p0, ?_⟩
      show mapGet (mapSet room.players c p) k.playerId = some p0
      rw [mapGet_mapSet_ne _ _ (fun heq => hc heq.symm)]
      exact hp0
  | build roomId0 room b hroom hrooms hnext hclients huuid hlog =>
    intro k hk hopen roomId hbound
    rw [hrooms]
    rw [hclients] at hk
    exact seat_kept_mapSet hroom (h k hk hopen roomId hbound) (fun p0 hp0 => ⟨p0, hp0⟩)
  | close c hrooms hnext hclients huuid hlog =>
    intro k1 hk1 hopen roomId hbound
    rw [hclients] at hk1
    obtain ⟨k, hk, hf⟩ := List.mem_map.mp hk1
    by_cases hc : k.playerId = c
    · rw [if_pos hc] at hf
      subst hf
      cases hopen
    · rw [if_neg hc] at hf
      subst hf
      rcases hrooms with hrooms | ⟨roomId0, room, hroom, hrooms⟩
      · rw [hrooms]
        exact h k hk hopen roomId hbound
      · rw [hrooms]
        refine seat_kept_mapSet hroom (h k hk hopen roomId hbound) ?_
        intro p0 hp0
        refine ⟨p0, ?_⟩
        show mapGet (mapDelete room.players c) k.playerId = some p0
        rw [mapGet_mapDelete_ne _ (fun heq => hc heq.symm)]
        exact hp0
  | expire roomId0 room hroom hempty hrooms hnext hclients huuid hlog =>
    intro k hk hopen roomId hbound
    rw [hclients] at hk
    obtain ⟨r, p0, hr, hp0⟩ := h k hk hopen roomId hbound
    rw [hrooms]
    by_cases hsame : roomId0 = roomId
    · subst hsame
      rw [hroom] at hr
      have hrr : room = r := by simpa using hr
      subst hrr
      rw [hempty] at hp0
      simp [mapGet] at hp0
    · exact ⟨r, p0, by rw [mapGet_mapDelete_ne _ hsame]; exact hr, hp0⟩

theorem seatsHeld_run (events : List Event) : SeatsHeld (run events) := by
  have hboth : KeysBelow (run events) ∧ SeatsHeld (run events) := by
    refine transition_invariant (fun s => KeysBelow s ∧ SeatsHeld s) ⟨?_, ?_⟩ ?_ events
    · intro x hx
      simp [State.init] at hx
    · intro k hk
      simp [State.init] at hk
    · rintro s t ⟨h1, h2⟩ htrans
      exact ⟨keysBelow_of_transition h1 htrans, seatsHeld_of_transition h1 h2 htrans⟩
  exact hboth.2

theorem seat_of_open {s : State} {c : Nat} {roomId : String} (hids : IdsInOrder s)
    (hopen : isOpen s c = true) (hbound : wsRoomId s c = some roomId) :
    ∃ k ∈ s.clients, k.playerId = c ∧ k.readyOpen = true ∧ k.roomId = some roomId := by
  have hnodup : (s.clients.map (fun k => k.playerId)).Nodup := by
    rw [hids]
    exact List.nodup_range _
  unfold isOpen at hopen
  rw [List.any_eq_true] at hopen
  obtain ⟨k2, hk2, hp2⟩ := hopen
  simp only [Bool.and_eq_true, decide_eq_true_eq] at hp2
  unfold wsRoomId at hbound
  cases hfind : s.clients.find? (fun k => decide (k.playerId = c)) with
  | none =>
    rw [hfind] at hbound
    cases hbound
  | some k1 =>
    rw [hfind] at hbound
    have hk1 := List.mem_of_find?_eq_some hfind
    have hp1 : k1.playerId = c := by
      have := List.find?_some hfind
      simpa using this
    have hsame : k1 = k2 :=
      List.inj_on_of_nodup_map hnodup hk1 hk2 (by rw [hp1, hp2.1])
    subst hsame
    exact ⟨k1, hk1, hp1, hp2.2, hbound⟩

theorem answers_pushed (s : State) (l : List (Nat × Msg)) : answers s (pushed s l) = l := by
  unfold answers
  rw [pushed_sent]
  exact List.drop_left _ _

theorem answers_pushed_of_sent {s t : State} (h : t.sent = s.sent) (l : List (Nat × Msg)) :
    answers s (pushed t l) = l := by
  unfold answers
  rw [pushed_sent, h]
  exact List.drop_left _ _

theorem mem_roomCast {s : State} {roomId : String} {sender : Nat} {m : Msg} {e : Nat × Msg}
    (h : e ∈ roomCast s roomId sender m) : e.2 = m := by
  unfold roomCast at h
  split at h
  · cases h
  · obtain ⟨k, -, hk⟩ := List.mem_map.mp h
    rw [← hk]

theorem handleBuild_seated_cases {s : State} {c : Nat} (data : Data) {roomId : String}
    {room : Room} (hseat : truthyId (wsRoomId s c) = some roomId)
    (hroom : mapGet s.rooms roomId = some room) :
    (∃ code message, code ≠ "ROOM_NOT_FOUND" ∧
        handleBuild s c c data = pushed s [(c, .error code message)]) ∨
      ∃ b, handleBuild s c c data =
        pushed (afterBuild s roomId room b)
          ((c, .buildConfirmed b.id b) ::
            roomCast (afterBuild s roomId room b) roomId c (.buildBroadcast b)) := by
  by_cases hdata : data.buildingType.truthy = true ∧ ∃ x y, data.x = .num x ∧ data.y = .num y
  · obtain ⟨htype, x, y, hx, hy⟩ := hdata
    by_cases hin : x < 0 ∨ x ≥ room.citySize ∨ y < 0 ∨ y ≥ room.citySize
    · left
      refine ⟨"OUT_OF_BOUNDS", [.lit "Position hors limites"], by decide, ?_⟩
      unfold handleBuild
      rw [hseat]
      simp only [hroom, htype, hx, hy, JVal.asNumber, hin, if_true]
      rfl
    · cases hocc : existingBuilding room x y with
      | some b =>
        left
        exact ⟨"POSITION_OCCUPIED", _, by decide,
          handleBuild_of_occupied hseat hroom htype hx hy hin hocc⟩
      | none =>
        right
        exact ⟨newBuilding s c data room x y,
          handleBuild_of_free hseat hroom htype hx hy hin hocc⟩
  · left
    refine ⟨"INVALID_BUILD_DATA", [.lit "Données de construction invalides"], by decide, ?_⟩
    unfold handleBuild
    rw [hseat]
    simp only [hroom]
    split
    · next x y h1 h2 h3 =>
      exfalso
      apply hdata
      refine ⟨h1, x, y, ?_, ?_⟩
      · cases hdx : data.x <;> simp [hdx, JVal.asNumber] at h2
        rw [h2]
      · cases hdy : data.y <;> simp [hdy, JVal.asNumber] at h3
        rw [h3]
    · rfl

theorem handleBuild_unseated {s : State} {c : Nat} (data : Data)
    (hseat : truthyId (wsRoomId s c) = none) :
    handleBuild s c c data =
      pushed s [(c, .error "NOT_IN_ROOM" [.lit "Vous n'êtes pas dans un salon"])] := by
  unfold handleBuild
  rw [hseat]
  rfl

/-- C14. Binding invariant. In every reachable state, for every open
connection `c`: if `c` is bound to a room id, the registry has that room and
the room's players map has the player id of `c` (this holds after every
event, timer callbacks included, so the timer never deletes a room an open
connection is bound to), and the owner lookup of `handleBuild` finds that
record: a building `c` places carries the pseudo of the record, not the
placeholder. Consequently no message `handleBuild` sends for `c` is `ERROR`
`ROOM_NOT_FOUND`, and `sendFullSync` on the binding of `c`, as `SYNC_REQUEST`
calls it, sends `c` a `FULL_SYNC` and nothing else. -/
theorem seats_are_held (events : List Event) (c : Nat)
    (hopen : isOpen (run events) c = true) :
    (∀ roomId, wsRoomId (run events) c = some roomId →
      ∃ room p, mapGet (run events).rooms roomId = some room ∧
        mapGet room.players c = some p ∧
        ∀ data x y, (newBuilding (run events) c data room x y).playerPseudo = p.pseudo) ∧
    (∀ data, ∀ e ∈ answers (run events) (handleBuild (run events) c c data),
      ∀ m, e.2 ≠ .error "ROOM_NOT_FOUND" m) ∧
    (∃ citySize buildings players gameTime,
      sendFullSync (run events) c (wsRoomId (run events) c) =
        { run events with sent := (run events).sent ++
            [(c, .fullSync citySize buildings players gameTime)] }) := by
  have hheld : ∀ roomId, wsRoomId (run events) c = some roomId →
      ∃ room p, mapGet (run events).rooms roomId = some room ∧
        mapGet room.players c = some p := by
    intro roomId hbound
    obtain ⟨k, hk, hid, hready, hroom⟩ := seat_of_open (idsInOrder_run events) hopen hbound
    obtain ⟨room, p, h1, h2⟩ := seatsHeld_run events k hk hready roomId hroom
    rw [hid] at h2
    exact ⟨room, p, h1, h2⟩
  refine ⟨?_, ?_, ?_⟩
  · intro roomId hbound
    obtain ⟨room, p, h1, h2⟩ := hheld roomId hbound
    refine ⟨room, p, h1, h2, ?_⟩
    intro data x y
    show pseudoOr (mapGet room.players c) = p.pseudo
    rw [h2]
    rfl
  · intro data e he m hem
    cases hw : wsRoomId (run events) c with
    | none =>
      have hseat : truthyId (wsRoomId (run events) c) = none := by
        rw [hw]
        rfl
      rw [handleBuild_unseated data hseat, answers_pushed] at he
      have he1 : e = (c, Msg.error "NOT_IN_ROOM" [.lit "Vous n'êtes pas dans un salon"]) := by
        simpa using he
      rw [he1] at hem
      have hcode : "NOT_IN_ROOM" = "ROOM_NOT_FOUND" := (Msg.error.inj hem).1
      exact absurd hcode (by decide)
    | some roomId =>
      obtain ⟨room, p, hroom, -⟩ := hheld roomId hw
      have hseat : truthyId (wsRoomId (run events) c) = some roomId := by
        rw [hw]
        exact truthyId_some (key_ne_empty (keysBelow_run events) hroom)
      rcases handleBuild_seated_cases data hseat hroom with ⟨code, message, hcode, heq⟩ | ⟨b, heq⟩
      · rw [heq, answers_pushed] at he
        have he1 : e = (c, Msg.error code message) := by simpa using he
        rw [he1] at hem
        exact hcode (Msg.error.inj hem).1
      · rw [heq, answers_pushed_of_sent (s := run events)
          (t := afterBuild (run events) roomId room b) rfl] at he
        rcases List.mem_cons.mp he with h1 | h1
        · rw [h1] at hem
          cases hem
        · rw [mem_roomCast h1] at hem
          cases hem
  · rw [sendFullSync_eq]
    cases hw : wsRoomId (run events) c with
    | none => exact ⟨16, [], syncPlayersOf (run events).gamePlayers, 0, rfl⟩
    | some roomId =>
      obtain ⟨room, p, hroom, -⟩ := hheld roomId hw
      rw [syncReply_of_seated (key_ne_empty (keysBelow_run events) hroom) hroom]
      exact ⟨_, _, _, _, rfl⟩

theorem seats_are_held_witness :
    isOpen (run twoSeatedRun) 1 = true ∧
      wsRoomId (run twoSeatedRun) 1 = some "room_1" ∧
      (∃ room p, mapGet (run twoSeatedRun).rooms "room_1" = some room ∧
        mapGet room.players 1 = some p ∧
        ∀ data x y, (newBuilding (run twoSeatedRun) 1 data room x y).playerPseudo = p.pseudo) :=
  ⟨by decide, by decide, (seats_are_held twoSeatedRun 1 (by decide)).1 "room_1" (by decide)⟩

end Anoria
